import Mathlib

/-! Verification of the triangle lifecycle engine of src/lib/triangle.ts.

The store (Prisma over MongoDB) is modelled as an explicit record of entity
lists; the list order of each entity list is its creation order (records are
appended on create, updated in place, and removed by filtering), which models
the createdAt orderings used by the source queries.  User ids are strings
(Mongo ObjectIds); triangle and position ids are naturals drawn from a
nextId counter.  Date.now() is modelled by a fixed clock field: no claim
depends on the progression of time.  Fallible operations return Except; the
events field is a ghost log recording each invocation of
handleTriangleCompletion, used to state invocation-count properties. -/

namespace Kings


/-- Entry of the static triangle shape table: level, index within level,
canonical slot key (TRIANGLE_STRUCTURE in the source). -/
structure StructEntry where
  level : Nat
  position : Nat
  key : String
deriving DecidableEq, Repr

/-- The fixed 15-slot triangle shape, in canonical fill order. -/
def TRIANGLE_STRUCTURE : List StructEntry :=
  [⟨1, 0, "A"⟩,
   ⟨2, 0, "AB1"⟩, ⟨2, 1, "AB2"⟩,
   ⟨3, 0, "B1C1"⟩, ⟨3, 1, "B1C2"⟩, ⟨3, 2, "B2C1"⟩, ⟨3, 3, "B2C2"⟩,
   ⟨4, 0, "C1D1"⟩, ⟨4, 1, "C1D2"⟩, ⟨4, 2, "C2D1"⟩, ⟨4, 3, "C2D2"⟩,
   ⟨4, 4, "C3D1"⟩, ⟨4, 5, "C3D2"⟩, ⟨4, 6, "C4D1"⟩, ⟨4, 7, "C4D2"⟩]

/-- User record (the fields the engine reads and writes). -/
structure User where
  id : String
  username : String
  referralCode : String
  plan : String
  uplineId : Option String
  balance : Int
  totalEarned : Int
deriving DecidableEq, Repr

/-- Triangle record. -/
structure Triangle where
  id : Nat
  planType : String
  isComplete : Bool
  payoutProcessed : Bool
  completedAt : Option Nat
deriving DecidableEq, Repr

/-- TrianglePosition record; `userId` is the nullable occupant reference. -/
structure Position where
  id : Nat
  triangleId : Nat
  level : Nat
  position : Nat
  positionKey : String
  userId : Option String
deriving DecidableEq, Repr

/-- Plan reference record consulted at payout time. -/
structure Plan where
  name : String
  payout : Int
deriving DecidableEq, Repr

/-- Transaction record as created by the payout step. -/
structure Txn where
  userId : String
  type : String
  amount : Int
  status : String
  transactionId : Nat
  description : String
deriving DecidableEq, Repr

/-- The store.  `events` is a ghost log of completion-handler invocations. -/
structure DB where
  users : List User
  triangles : List Triangle
  positions : List Position
  plans : List Plan
  txs : List Txn
  nextId : Nat
  clock : Nat
  events : List Nat
deriving DecidableEq, Repr

/-- prisma.user.findUnique by id. -/
def findUser (db : DB) (uid : String) : Option User :=
  db.users.find? (fun u => u.id = uid)

/-- prisma.triangle lookup by id. -/
def findTriangle (db : DB) (tid : Nat) : Option Triangle :=
  db.triangles.find? (fun t => t.id = tid)

/-- Strict canonical order on slots: ascending level, then ascending index. -/
def posLtB (p q : Position) : Bool :=
  p.level < q.level || (p.level = q.level && p.position < q.position)

/-- Stable insertion of a slot into a canonically ordered list. -/
def insertPos (p : Position) : List Position → List Position
  | [] => [p]
  | q :: qs => if posLtB p q then p :: q :: qs else q :: insertPos p qs

/-- Stable sort by the canonical slot order; models
orderBy [level asc, position asc] on position queries. -/
def sortPos (l : List Position) : List Position :=
  l.foldr insertPos []

/-- Positions of one triangle in canonical order (findMany with orderBy). -/
def positionsOf (db : DB) (tid : Nat) : List Position :=
  sortPos (db.positions.filter (fun p => p.triangleId = tid))

/-- First open slot of a triangle in canonical order
(findFirst where userId null, orderBy level asc then position asc). -/
def openSlot (db : DB) (tid : Nat) : Option Position :=
  (sortPos (db.positions.filter (fun p => p.triangleId = tid && p.userId.isNone))).head?

/-- Count of occupied slots of a triangle (count where userId not null). -/
def countFilled (db : DB) (tid : Nat) : Nat :=
  db.positions.countP (fun p => p.triangleId = tid && p.userId.isSome)

/-- Most recently created position of a user (orderBy createdAt desc, take
the first); creation order is list order, so this is the last match. -/
def latestPositionOf (db : DB) (uid : String) : Option Position :=
  (db.positions.filter (fun p => p.userId = some uid)).getLast?

/-- createTriangle: a fresh empty triangle plus its 15 positions in
TRIANGLE_STRUCTURE order, appended to the store. -/
def createTriangle (db : DB) (planType : String) : Triangle × DB :=
  let t : Triangle :=
    { id := db.nextId, planType := planType, isComplete := false,
      payoutProcessed := false, completedAt := none }
  let ps : List Position := TRIANGLE_STRUCTURE.enum.map (fun e =>
    { id := db.nextId + 1 + e.1, triangleId := t.id, level := e.2.level,
      position := e.2.position, positionKey := e.2.key, userId := none })
  (t, { db with triangles := db.triangles ++ [t],
                positions := db.positions ++ ps,
                nextId := db.nextId + 16 })

/-- Promotion map for the AB1 (left) subtree, into the first successor. -/
def ab1SubtreeMap : List (String × String) :=
  [("B1C1", "AB1"), ("B1C2", "AB2"),
   ("C1D1", "B1C1"), ("C1D2", "B1C2"), ("C2D1", "B2C1"), ("C2D2", "B2C2")]

/-- Promotion map for the AB2 (right) subtree, into the second successor. -/
def ab2SubtreeMap : List (String × String) :=
  [("B2C1", "AB1"), ("B2C2", "AB2"),
   ("C3D1", "B1C1"), ("C3D2", "B1C2"), ("C4D1", "B2C1"), ("C4D2", "B2C2")]

/-- update on the compound unique key (triangleId, level, position),
setting the occupant. -/
def setByLPK (db : DB) (tid lvl idx : Nat) (uid : String) : DB :=
  { db with positions := db.positions.map (fun p =>
      if p.triangleId = tid && p.level = lvl && p.position = idx then
        { p with userId := some uid } else p) }

/-- One iteration of a promotion loop: look up the old slot in the snapshot
taken from the retired triangle (with its included user record), and if it
has an occupant with a user record, write that user into the slot of the
successor triangle named by the map. -/
def promoteOne (db : DB) (snapshot : List Position) (origUsers : List User)
    (pair : String × String) (newTid : Nat) : DB :=
  match snapshot.find? (fun p => p.positionKey = pair.1) with
  | none => db
  | some oldPos =>
    match oldPos.userId.bind (fun uid => origUsers.find? (fun u => u.id = uid)) with
    | none => db
    | some u =>
      match db.positions.find? (fun p =>
          p.triangleId = newTid && p.positionKey = pair.2) with
      | none => db
      | some newPos =>
        { db with positions := db.positions.map (fun p =>
            if p.id = newPos.id then { p with userId := some u.id } else p) }

/-- cycleTriangle: split a completed triangle into two successors when both
level-2 slots are occupied, promoting one subtree into each, then hard-delete
the old triangle and all of its positions.  The position snapshot is taken
once, before anything is created, exactly as the source's single findMany. -/
def cycleTriangle (db : DB) (tid : Nat) : DB :=
  let snapshot := positionsOf db tid
  match (if snapshot.isEmpty then none else findTriangle db tid) with
  | none => db
  | some triangle =>
    let ab1User := (snapshot.find? (fun p => p.level = 2 && p.position = 0)).bind
      (fun p => p.userId.bind (findUser db))
    let ab2User := (snapshot.find? (fun p => p.level = 2 && p.position = 1)).bind
      (fun p => p.userId.bind (findUser db))
    let db3 :=
      match ab1User, ab2User with
      | some u1, some u2 =>
        let r1 := createTriangle db triangle.planType
        let r2 := createTriangle r1.2 triangle.planType
        let dbA := setByLPK r2.2 r1.1.id 1 0 u1.id
        let dbB := setByLPK dbA r2.1.id 1 0 u2.id
        let dbC := ab1SubtreeMap.foldl
          (fun d pr => promoteOne d snapshot db.users pr r1.1.id) dbB
        ab2SubtreeMap.foldl
          (fun d pr => promoteOne d snapshot db.users pr r2.1.id) dbC
      | _, _ => db
    { db3 with
      positions := db3.positions.filter (fun p => !(p.triangleId = tid)),
      triangles := db3.triangles.filter (fun t => !(t.id = tid)) }

/-- handleTriangleCompletion: mark the triangle complete, pay the level-1
occupant if both the occupant and the plan record exist (creating one PENDING
withdrawal and crediting balance and totalEarned), then always cycle.  A
missing plan or missing occupant silently skips the payout only.  The source
dereferences the position's included triangle without a guard; that include
is modelled by a lookup, unreachable as `none` whenever the triangle exists. -/
def handleTriangleCompletion (db : DB) (tid : Nat) : DB :=
  let db1 : DB :=
    { db with
      triangles := db.triangles.map (fun t =>
        if t.id = tid then { t with isComplete := true, completedAt := some db.clock }
        else t),
      events := db.events ++ [tid] }
  let db2 : DB :=
    match db1.positions.find? (fun p =>
        p.triangleId = tid && p.level = 1 && p.position = 0) with
    | none => db1
    | some pA =>
      match pA.userId.bind (findUser db1) with
      | none => db1
      | some u =>
        match findTriangle db1 pA.triangleId with
        | none => db1
        | some tri =>
          match db1.plans.find? (fun pl => pl.name = tri.planType) with
          | none => db1
          | some pl =>
            let dbt : DB :=
              { db1 with txs := db1.txs ++
                  [{ userId := u.id, type := "WITHDRAWAL", amount := pl.payout,
                     status := "PENDING", transactionId := db1.clock,
                     description := "Automatic withdrawal - Triangle completion" }] }
            { dbt with users := dbt.users.map (fun v =>
                if v.id = u.id then
                  { v with balance := v.balance + pl.payout,
                           totalEarned := v.totalEarned + pl.payout }
                else v) }
  cycleTriangle db2 tid

/-- Truthiness of an optional JS string: present and nonempty. -/
def jsTruthy (o : Option String) : Bool :=
  match o with
  | none => false
  | some s => s ≠ ""

/-- The JS expression a || b on two optional strings, with none for a falsy
result: used for referrerId || user.uplineId. -/
def jsOrTok (a b : Option String) : Option String :=
  if jsTruthy a then a else if jsTruthy b then b else none

/-- Step 1 of placement: the referrer-affinity target.  Resolve the candidate
referrer token, load that user, take the triangle of their most recently
created position, and select it when it has the user's plan, is not complete,
and has an open slot. -/
def refTargetTriangle (db : DB) (user : User) (referrerId : Option String) :
    Option Triangle :=
  match jsOrTok referrerId user.uplineId with
  | none => none
  | some rid =>
    match findUser db rid with
    | none => none
    | some _ =>
      match latestPositionOf db rid with
      | none => none
      | some rp =>
        match findTriangle db rp.triangleId with
        | none => none
        | some tri =>
          if tri.planType = user.plan && !tri.isComplete then
            match openSlot db rp.triangleId with
            | some _ => some tri
            | none => none
          else none

/-- Step 2 of placement: the oldest (creation order ascending) incomplete
triangle of the plan that still has an open slot. -/
def oldestOpenTriangle (db : DB) (plan : String) : Option Triangle :=
  db.triangles.find? (fun t =>
    t.planType = plan && !t.isComplete &&
      db.positions.any (fun p => p.triangleId = t.id && p.userId.isNone))

/-- Placement into a chosen target triangle: take the first open slot in
canonical order (error when none), write the occupant, recount, and run the
completion handler when the count reaches 15.  Returns the slot record as it
was read, before the occupant write. -/
def assignIntoTriangle (db : DB) (userId : String) (t : Triangle) :
    Except String (Position × DB) :=
  match openSlot db t.id with
  | none => .error "No available positions in triangle"
  | some pos =>
    let db1 : DB :=
      { db with positions := db.positions.map (fun p =>
          if p.id = pos.id then { p with userId := some userId } else p) }
    let db2 : DB :=
      if countFilled db1 t.id = 15 then handleTriangleCompletion db1 t.id else db1
    .ok (pos, db2)

/-- assignUserToTriangle: referrer-affinity target first, else the oldest
open triangle of the user's plan, else a brand-new triangle. -/
def assignUserToTriangle (db : DB) (userId : String) (referrerId : Option String) :
    Except String (Position × DB) :=
  match findUser db userId with
  | none => .error "User not found"
  | some user =>
    match refTargetTriangle db user referrerId with
    | some t => assignIntoTriangle db userId t
    | none =>
      match oldestOpenTriangle db user.plan with
      | some t => assignIntoTriangle db userId t
      | none =>
        let r := createTriangle db user.plan
        assignIntoTriangle r.2 userId r.1

/-- Lower-casing of a string, as a character-list operation
(the JS toLowerCase on the ASCII ids involved). -/
def lowerStr (s : String) : List Char :=
  s.data.map Char.toLower

/-- Suffix test on character lists (the JS endsWith). -/
def endsWithCL (s t : List Char) : Bool :=
  decide (s.drop (s.length - t.length) = t)

/-- Syntactic test for a Mongo ObjectId: exactly 24 hex characters. -/
def isValidObjectId (id : String) : Bool :=
  id.length = 24 && id.data.all (fun c =>
    c.isDigit || ('a' ≤ c && c ≤ 'f') || ('A' ≤ c && c ≤ 'F'))

/-- findReferrer: exact id match when the token looks like an ObjectId, else
exact username match, else exact referralCode match, else — only for tokens
of length at least 3 — the first user whose id ends with the token,
case-insensitively. -/
def findReferrer (db : DB) (referralCode : String) : Option User :=
  let r1 : Option User :=
    if isValidObjectId referralCode then
      db.users.find? (fun u => u.id = referralCode)
    else none
  let r2 : Option User :=
    match r1 with
    | some u => some u
    | none => db.users.find? (fun u => u.username = referralCode)
  let r3 : Option User :=
    match r2 with
    | some u => some u
    | none => db.users.find? (fun u => u.referralCode = referralCode)
  match r3 with
  | some u => some u
  | none =>
    if 3 ≤ referralCode.length then
      match db.users.find? (fun u =>
          endsWithCL (lowerStr u.id) (lowerStr referralCode)) with
      | some u => some u
      | none => none
    else none

/-- The 15 fresh positions created for a new triangle: TRIANGLE_STRUCTURE
instantiated with ids base+1 .. base+15. -/
def freshPositions (base tid : Nat) : List Position :=
  [⟨base + 1, tid, 1, 0, "A", none⟩,
   ⟨base + 2, tid, 2, 0, "AB1", none⟩, ⟨base + 3, tid, 2, 1, "AB2", none⟩,
   ⟨base + 4, tid, 3, 0, "B1C1", none⟩, ⟨base + 5, tid, 3, 1, "B1C2", none⟩,
   ⟨base + 6, tid, 3, 2, "B2C1", none⟩, ⟨base + 7, tid, 3, 3, "B2C2", none⟩,
   ⟨base + 8, tid, 4, 0, "C1D1", none⟩, ⟨base + 9, tid, 4, 1, "C1D2", none⟩,
   ⟨base + 10, tid, 4, 2, "C2D1", none⟩, ⟨base + 11, tid, 4, 3, "C2D2", none⟩,
   ⟨base + 12, tid, 4, 4, "C3D1", none⟩, ⟨base + 13, tid, 4, 5, "C3D2", none⟩,
   ⟨base + 14, tid, 4, 6, "C4D1", none⟩, ⟨base + 15, tid, 4, 7, "C4D2", none⟩]

/-- A fully occupied triangle: the 15 canonical positions of triangle tid,
with arbitrary position ids and one occupant per slot. -/
def fullTriangle (tid : Nat) (i1 i2 i3 i4 i5 i6 i7 i8 i9 i10 i11 i12 i13 i14 i15 : Nat)
    (vA vAB1 vAB2 vB1C1 vB1C2 vB2C1 vB2C2 vC1D1 vC1D2 vC2D1 vC2D2 vC3D1 vC3D2 vC4D1 vC4D2 : String) : List Position :=
  [⟨i1, tid, 1, 0, "A", some vA⟩, ⟨i2, tid, 2, 0, "AB1", some vAB1⟩, ⟨i3, tid, 2, 1, "AB2", some vAB2⟩, ⟨i4, tid, 3, 0, "B1C1", some vB1C1⟩, ⟨i5, tid, 3, 1, "B1C2", some vB1C2⟩, ⟨i6, tid, 3, 2, "B2C1", some vB2C1⟩, ⟨i7, tid, 3, 3, "B2C2", some vB2C2⟩, ⟨i8, tid, 4, 0, "C1D1", some vC1D1⟩, ⟨i9, tid, 4, 1, "C1D2", some vC1D2⟩, ⟨i10, tid, 4, 2, "C2D1", some vC2D1⟩, ⟨i11, tid, 4, 3, "C2D2", some vC2D2⟩, ⟨i12, tid, 4, 4, "C3D1", some vC3D1⟩, ⟨i13, tid, 4, 5, "C3D2", some vC3D2⟩, ⟨i14, tid, 4, 6, "C4D1", some vC4D1⟩, ⟨i15, tid, 4, 7, "C4D2", some vC4D2⟩]

/-- The first successor triangle produced by a split, with base id n:
the AB1 occupant at A and the left promotion map applied. -/
def leftSuccessor (n : Nat) (vAB1 vB1C1 vB1C2 vC1D1 vC1D2 vC2D1 vC2D2 : String) :
    List Position :=
  [⟨n + 1, n, 1, 0, "A", some vAB1⟩, ⟨n + 2, n, 2, 0, "AB1", some vB1C1⟩, ⟨n + 3, n, 2, 1, "AB2", some vB1C2⟩, ⟨n + 4, n, 3, 0, "B1C1", some vC1D1⟩, ⟨n + 5, n, 3, 1, "B1C2", some vC1D2⟩, ⟨n + 6, n, 3, 2, "B2C1", some vC2D1⟩, ⟨n + 7, n, 3, 3, "B2C2", some vC2D2⟩, ⟨n + 8, n, 4, 0, "C1D1", none⟩, ⟨n + 9, n, 4, 1, "C1D2", none⟩, ⟨n + 10, n, 4, 2, "C2D1", none⟩, ⟨n + 11, n, 4, 3, "C2D2", none⟩, ⟨n + 12, n, 4, 4, "C3D1", none⟩, ⟨n + 13, n, 4, 5, "C3D2", none⟩, ⟨n + 14, n, 4, 6, "C4D1", none⟩, ⟨n + 15, n, 4, 7, "C4D2", none⟩]

/-- The second successor triangle produced by a split, with base id m:
the AB2 occupant at A and the right promotion map applied. -/
def rightSuccessor (m : Nat) (vAB2 vB2C1 vB2C2 vC3D1 vC3D2 vC4D1 vC4D2 : String) :
    List Position :=
  [⟨m + 1, m, 1, 0, "A", some vAB2⟩, ⟨m + 2, m, 2, 0, "AB1", some vB2C1⟩, ⟨m + 3, m, 2, 1, "AB2", some vB2C2⟩, ⟨m + 4, m, 3, 0, "B1C1", some vC3D1⟩, ⟨m + 5, m, 3, 1, "B1C2", some vC3D2⟩, ⟨m + 6, m, 3, 2, "B2C1", some vC4D1⟩, ⟨m + 7, m, 3, 3, "B2C2", some vC4D2⟩, ⟨m + 8, m, 4, 0, "C1D1", none⟩, ⟨m + 9, m, 4, 1, "C1D2", none⟩, ⟨m + 10, m, 4, 2, "C2D1", none⟩, ⟨m + 11, m, 4, 3, "C2D2", none⟩, ⟨m + 12, m, 4, 4, "C3D1", none⟩, ⟨m + 13, m, 4, 5, "C3D2", none⟩, ⟨m + 14, m, 4, 6, "C4D1", none⟩, ⟨m + 15, m, 4, 7, "C4D2", none⟩]

def refUser1 : User :=
  { id := "0123456789abcdef012345ab", username := "bob", referralCode := "r1",
    plan := "K1", uplineId := none, balance := 0, totalEarned := 0 }

def refUser2 : User :=
  { id := "ffffffffffffffffffffffff", username := "0123456789abcdef012345ab",
    referralCode := "r2", plan := "K1", uplineId := none, balance := 0, totalEarned := 0 }

def refUser3 : User :=
  { id := "eeeeeeeeeeeeeeeeeeeeeeee", username := "carol",
    referralCode := "0123456789abcdef012345ab", plan := "K1", uplineId := none,
    balance := 0, totalEarned := 0 }

def dbRef : DB :=
  { users := [refUser2, refUser3, refUser1], triangles := [], positions := [],
    plans := [], txs := [], nextId := 0, clock := 0, events := [] }

def mkRunUser (i : Nat) : User :=
  { id := "u" ++ toString i, username := "name" ++ toString i,
    referralCode := "ref" ++ toString i, plan := "K1", uplineId := none,
    balance := 0, totalEarned := 0 }

def runNames (n : Nat) : List String :=
  (List.range n).map (fun i => "u" ++ toString (i + 1))

def runDB : DB :=
  { users := (List.range 15).map (fun i => mkRunUser (i + 1)),
    triangles := [], positions := [], plans := [{ name := "K1", payout := 500 }],
    txs := [], nextId := 0, clock := 7, events := [] }

def runAssign (db : DB) (us : List String) : Except String (List String × DB) :=
  us.foldlM (fun acc u =>
    (assignUserToTriangle acc.2 u none).map
      (fun r => (acc.1 ++ [r.1.positionKey], r.2))) ([], db)

/-- A store holding one fully occupied triangle (id 0) with users u1..u15 in
canonical slot order, used to instantiate the cycling theorems. -/
def dbSeed : DB :=
  { users := (List.range 15).map (fun i => mkRunUser (i + 1)),
    triangles := [⟨0, "K1", false, false, none⟩],
    positions := fullTriangle 0 1 2 3 4 5 6 7 8 9 10 11 12 13 14 15 "u1" "u2" "u3" "u4" "u5" "u6" "u7" "u8" "u9" "u10" "u11" "u12" "u13" "u14" "u15",
    plans := [{ name := "K1", payout := 500 }], txs := [], nextId := 16,
    clock := 7, events := [] }

def dbSeed14 : DB :=
  { dbSeed with positions := dbSeed.positions.map (fun p => if p.positionKey = "C4D2" then { p with userId := none } else p) }

def dbSeedNoPlan : DB :=
  { dbSeed with plans := [] }

def dbSeedAB2open : DB :=
  { dbSeed with positions := dbSeed.positions.map (fun p => if p.positionKey = "AB2" then { p with userId := none } else p) }

lemma map_noop {α : Type} {l : List α} {f : α → α} (h : ∀ a ∈ l, f a = a) :
    l.map f = l := by
  induction l with
  | nil => rfl
  | cons x xs ih =>
    simp only [List.map_cons, h x (List.mem_cons_self x xs)]
    rw [ih (fun a ha => h a (List.mem_cons_of_mem x ha))]

lemma find_key_map_update {α κ : Type} [DecidableEq κ] (key : α → κ) (g : α → α)
    (hg : ∀ x, key (g x) = key x) (l : List α) (k : κ) (a : α)
    (h : l.find? (fun x => key x = k) = some a) :
    (l.map (fun x => if key x = k then g x else x)).find? (fun x => key x = k)
      = some (g a) := by
  induction l with
  | nil => simp at h
  | cons x xs ih =>
    by_cases hx : key x = k
    · rw [List.find?_cons_of_pos _ (by simp [hx])] at h
      injection h with h
      subst h
      simp only [List.map_cons, if_pos hx]
      rw [List.find?_cons_of_pos _ (by simp [hg, hx])]
    · rw [List.find?_cons_of_neg _ (by simp [hx])] at h
      simp only [List.map_cons, if_neg hx]
      rw [List.find?_cons_of_neg _ (by simp [hx])]
      exact ih h

lemma posLtB_irrefl (p : Position) : posLtB p p = false := by
  simp [posLtB]

lemma posLtB_trans {a b c : Position} (h1 : posLtB a b = true)
    (h2 : posLtB b c = true) : posLtB a c = true := by
  simp only [posLtB, Bool.or_eq_true, decide_eq_true_eq, Bool.and_eq_true] at *
  omega

lemma posLtB_false_iff {q p : Position} :
    posLtB q p = false ↔
      (p.level < q.level ∨ (p.level = q.level ∧ p.position ≤ q.position)) := by
  rw [Bool.eq_false_iff]
  simp only [posLtB, ne_eq, Bool.or_eq_true, decide_eq_true_eq, Bool.and_eq_true, not_or,
    not_and, not_lt]
  omega

lemma insertPos_ne_nil (p : Position) (l : List Position) : insertPos p l ≠ [] := by
  cases l with
  | nil => simp [insertPos]
  | cons q qs =>
    simp only [insertPos]
    split <;> simp

lemma mem_insertPos {p x : Position} {l : List Position} :
    x ∈ insertPos p l ↔ x = p ∨ x ∈ l := by
  induction l with
  | nil => simp [insertPos]
  | cons q qs ih =>
    simp only [insertPos]
    split
    · simp only [List.mem_cons]
    · simp only [List.mem_cons, ih]
      tauto

lemma sortPos_cons (x : Position) (xs : List Position) :
    sortPos (x :: xs) = insertPos x (sortPos xs) := rfl

lemma mem_sortPos {x : Position} {l : List Position} :
    x ∈ sortPos l ↔ x ∈ l := by
  induction l with
  | nil => simp [sortPos]
  | cons q qs ih =>
    rw [sortPos_cons, mem_insertPos]
    simp only [List.mem_cons, ih]

lemma sortPos_eq_nil_iff {l : List Position} : sortPos l = [] ↔ l = [] := by
  cases l with
  | nil => simp [sortPos]
  | cons q qs =>
    rw [sortPos_cons]
    simpa using insertPos_ne_nil q (sortPos qs)

lemma sortPos_head_min : ∀ {l : List Position} {p : Position} {rest : List Position},
    sortPos l = p :: rest → ∀ q ∈ l, posLtB q p = false := by
  intro l
  induction l with
  | nil => intro p rest h; simp [sortPos] at h
  | cons x xs ih =>
    intro p rest h q hq
    rw [sortPos_cons] at h
    cases hs : sortPos xs with
    | nil =>
      have hxs : xs = [] := sortPos_eq_nil_iff.mp hs
      subst hxs
      rw [hs] at h
      simp only [insertPos] at h
      injection h with h1 h2
      subst h1
      have hqx : q = x := by simpa using hq
      subst hqx
      exact posLtB_irrefl q
    | cons y ys =>
      rw [hs] at h
      simp only [insertPos] at h
      rcases List.mem_cons.mp hq with hqx | hqxs
      · subst hqx
        by_cases hxy : posLtB q y = true
        · rw [if_pos hxy] at h
          injection h with h1 h2
          subst h1
          exact posLtB_irrefl q
        · rw [if_neg hxy] at h
          injection h with h1 h2
          subst h1
          exact Bool.eq_false_iff.mpr hxy
      · by_cases hxy : posLtB x y = true
        · rw [if_pos hxy] at h
          injection h with h1 h2
          subst h1
          have hy := ih hs q hqxs
          by_contra hqp
          have hqp2 : posLtB q x = true := by
            revert hqp
            cases posLtB q x <;> simp
          have hc := posLtB_trans hqp2 hxy
          simp [hc] at hy
        · rw [if_neg hxy] at h
          injection h with h1 h2
          subst h1
          exact ih hs q hqxs

lemma sortPos_fullTriangle (tid : Nat) (i1 i2 i3 i4 i5 i6 i7 i8 i9 i10 i11 i12 i13 i14 i15 : Nat)
    (vA vAB1 vAB2 vB1C1 vB1C2 vB2C1 vB2C2 vC1D1 vC1D2 vC2D1 vC2D2 vC3D1 vC3D2 vC4D1 vC4D2 : String) :
    sortPos (fullTriangle tid i1 i2 i3 i4 i5 i6 i7 i8 i9 i10 i11 i12 i13 i14 i15 vA vAB1 vAB2 vB1C1 vB1C2 vB2C1 vB2C2 vC1D1 vC1D2 vC2D1 vC2D2 vC3D1 vC3D2 vC4D1 vC4D2)
      = fullTriangle tid i1 i2 i3 i4 i5 i6 i7 i8 i9 i10 i11 i12 i13 i14 i15 vA vAB1 vAB2 vB1C1 vB1C2 vB2C1 vB2C2 vC1D1 vC1D2 vC2D1 vC2D2 vC3D1 vC3D2 vC4D1 vC4D2 := by
  simp [sortPos, fullTriangle, insertPos, posLtB]

lemma openSlot_spec {db : DB} {tid : Nat} {pos : Position}
    (h : openSlot db tid = some pos) :
    pos ∈ db.positions ∧ pos.triangleId = tid ∧ pos.userId = none ∧
      ∀ q ∈ db.positions, q.triangleId = tid → q.userId = none →
        posLtB q pos = false := by
  unfold openSlot at h
  cases hs : sortPos (db.positions.filter (fun r => r.triangleId = tid && r.userId.isNone)) with
  | nil => rw [hs] at h; simp at h
  | cons y ys =>
    rw [hs] at h
    simp only [List.head?_cons, Option.some_inj] at h
    subst h
    have hmem : y ∈ db.positions.filter (fun r => r.triangleId = tid && r.userId.isNone) := by
      rw [← mem_sortPos, hs]
      exact List.mem_cons_self _ _
    rw [List.mem_filter] at hmem
    obtain ⟨hmem, hprop⟩ := hmem
    simp only [Bool.and_eq_true, decide_eq_true_eq, Option.isNone_iff_eq_none] at hprop
    refine ⟨hmem, hprop.1, hprop.2, ?_⟩
    intro q hq htid hnone
    have hqf : q ∈ db.positions.filter (fun r => r.triangleId = tid && r.userId.isNone) := by
      rw [List.mem_filter]
      exact ⟨hq, by simp [htid, hnone]⟩
    exact sortPos_head_min hs q hqf

lemma openSlot_isSome_of_any {db : DB} {tid : Nat}
    (h : db.positions.any (fun r => r.triangleId = tid && r.userId.isNone) = true) :
    (openSlot db tid).isSome := by
  rw [List.any_eq_true] at h
  obtain ⟨r, hr, hprop⟩ := h
  unfold openSlot
  cases hs : sortPos (db.positions.filter (fun r => r.triangleId = tid && r.userId.isNone)) with
  | nil =>
    rw [sortPos_eq_nil_iff] at hs
    have hmem : r ∈ db.positions.filter (fun r => r.triangleId = tid && r.userId.isNone) := by
      rw [List.mem_filter]
      exact ⟨hr, hprop⟩
    rw [hs] at hmem
    cases hmem
  | cons y ys => simp

lemma createTriangle_eq (db : DB) (pt : String) :
    createTriangle db pt =
      ({ id := db.nextId, planType := pt, isComplete := false,
         payoutProcessed := false, completedAt := none },
       { db with
         triangles := db.triangles ++
           [{ id := db.nextId, planType := pt, isComplete := false,
              payoutProcessed := false, completedAt := none }],
         positions := db.positions ++ freshPositions db.nextId db.nextId,
         nextId := db.nextId + 16 }) := rfl

lemma openSlot_createTriangle (db : DB) (pt : String)
    (hWF : ∀ p ∈ db.positions, p.triangleId < db.nextId) :
    openSlot (createTriangle db pt).2 db.nextId
      = some ⟨db.nextId + 1, db.nextId, 1, 0, "A", none⟩ := by
  have hpre : db.positions.filter
      (fun p => p.triangleId = db.nextId && p.userId.isNone) = [] := by
    rw [List.filter_eq_nil_iff]
    intro p hp
    have := hWF p hp
    simp [Nat.ne_of_lt this]
  rw [createTriangle_eq]
  show (sortPos ((db.positions ++ freshPositions db.nextId db.nextId).filter
    (fun p => p.triangleId = db.nextId && p.userId.isNone))).head? = _
  rw [List.filter_append, hpre, List.nil_append]
  rw [show (freshPositions db.nextId db.nextId).filter
        (fun p => p.triangleId = db.nextId && p.userId.isNone)
      = freshPositions db.nextId db.nextId by simp [freshPositions]]
  rfl

lemma promoteOne_projEq (db : DB) (s : List Position) (us : List User)
    (pr : String × String) (nt : Nat) :
    promoteOne db s us pr nt
      = { db with positions := (promoteOne db s us pr nt).positions } := by
  unfold promoteOne
  split
  · rfl
  · split
    · rfl
    · split
      · rfl
      · rfl

lemma promoteFold_projEq (l : List (String × String)) (db : DB)
    (s : List Position) (us : List User) (nt : Nat) :
    l.foldl (fun d pr => promoteOne d s us pr nt) db
      = { db with positions := (l.foldl (fun d pr => promoteOne d s us pr nt) db).positions } := by
  induction l generalizing db with
  | nil => rfl
  | cons pr prs ih =>
    simp only [List.foldl_cons]
    rw [ih (promoteOne db s us pr nt)]
    rw [promoteOne_projEq]

lemma cycleTriangle_projEq (db : DB) (tid : Nat) :
    cycleTriangle db tid
      = { db with positions := (cycleTriangle db tid).positions,
                  triangles := (cycleTriangle db tid).triangles,
                  nextId := (cycleTriangle db tid).nextId } := by
  simp only [cycleTriangle]
  split
  · rfl
  · split
    · rw [promoteFold_projEq, promoteFold_projEq]
      rfl
    · rfl

lemma cycleTriangle_users (db : DB) (tid : Nat) :
    (cycleTriangle db tid).users = db.users := by
  conv_lhs => rw [cycleTriangle_projEq]

lemma cycleTriangle_txs (db : DB) (tid : Nat) :
    (cycleTriangle db tid).txs = db.txs := by
  conv_lhs => rw [cycleTriangle_projEq]

lemma cycleTriangle_events (db : DB) (tid : Nat) :
    (cycleTriangle db tid).events = db.events := by
  conv_lhs => rw [cycleTriangle_projEq]

lemma cycleTriangle_shape {db : DB} {tid : Nat} (hne : positionsOf db tid ≠ [])
    (ht : (findTriangle db tid).isSome) :
    ∃ db3 : DB, cycleTriangle db tid
      = { db3 with positions := db3.positions.filter (fun p => !(p.triangleId = tid)),
                   triangles := db3.triangles.filter (fun t => !(t.id = tid)) } := by
  simp only [cycleTriangle]
  split
  · next hnone =>
    exfalso
    rcases hl : positionsOf db tid with _ | ⟨a, as⟩
    · exact hne hl
    · rw [hl] at hnone
      simp at hnone
      rw [hnone] at ht
      simp at ht
  · exact ⟨_, rfl⟩

lemma cycleTriangle_gone {db : DB} {tid : Nat} (hne : positionsOf db tid ≠ [])
    (ht : (findTriangle db tid).isSome) :
    (cycleTriangle db tid).triangles.find? (fun t => t.id = tid) = none ∧
    (cycleTriangle db tid).positions.filter (fun p => p.triangleId = tid) = [] := by
  obtain ⟨db3, h3⟩ := cycleTriangle_shape hne ht
  rw [h3]
  constructor
  · apply List.find?_eq_none.mpr
    intro x hx
    rw [List.mem_filter] at hx
    simpa using hx.2
  · rw [List.filter_eq_nil_iff]
    intro a ha
    rw [List.mem_filter] at ha
    simpa using ha.2

lemma bind_user_none {o : Option Position} (f : String → Option User)
    (h : o.bind (fun p => p.userId) = none) :
    o.bind (fun p => p.userId.bind f) = none := by
  cases o with
  | none => rfl
  | some p =>
    simp only [Option.some_bind] at *
    rw [h]
    rfl

lemma assignInto_ok (db : DB) (uid : String) (t : Triangle) (pos : Position)
    (h : openSlot db t.id = some pos) :
    ∃ db2, assignIntoTriangle db uid t = .ok (pos, db2) := by
  simp only [assignIntoTriangle, h]
  exact ⟨_, rfl⟩

lemma assignInto_inv {db : DB} {uid : String} {t : Triangle} {pos : Position} {db2 : DB}
    (h : assignIntoTriangle db uid t = .ok (pos, db2)) :
    openSlot db t.id = some pos := by
  unfold assignIntoTriangle at h
  cases hos : openSlot db t.id with
  | none => rw [hos] at h; cases h
  | some p =>
    rw [hos] at h
    simp only [Except.ok.injEq, Prod.mk.injEq] at h
    rw [h.1]

example : (runAssign runDB (runNames 14)).map (fun r => (r.1, r.2.events))
    = .ok ((TRIANGLE_STRUCTURE.map StructEntry.key).take 14, []) := by rfl

example : (runAssign runDB (runNames 15)).map (fun r => (r.1, r.2.events))
    = .ok (TRIANGLE_STRUCTURE.map StructEntry.key, [0]) := by rfl

lemma oldestOpen_props {db : DB} {plan : String} {t : Triangle}
    (h : oldestOpenTriangle db plan = some t) :
    t.planType = plan ∧ t.isComplete = false ∧ (openSlot db t.id).isSome := by
  have hp := List.find?_some h
  simp only [Bool.and_eq_true, decide_eq_true_eq, Bool.not_eq_true'] at hp
  exact ⟨hp.1.1, hp.1.2, openSlot_isSome_of_any hp.2⟩

lemma mapNoopLPK (db : DB) (m lvl idx : Nat) (uid : String) (hm : db.nextId ≤ m)
    (hWFp : ∀ p ∈ db.positions, p.triangleId < db.nextId ∧ p.id < db.nextId) :
    db.positions.map (fun p =>
      if p.triangleId = m && p.level = lvl && p.position = idx then
        { p with userId := some uid } else p) = db.positions := by
  apply map_noop
  intro p hp
  have hb := (hWFp p hp).1
  rw [if_neg]
  simp only [Bool.and_eq_true, decide_eq_true_eq]
  intro h
  omega

lemma mapNoopId (db : DB) (m : Nat) (uid : String) (hm : db.nextId ≤ m)
    (hWFp : ∀ p ∈ db.positions, p.triangleId < db.nextId ∧ p.id < db.nextId) :
    db.positions.map (fun p =>
      if p.id = m then { p with userId := some uid } else p) = db.positions := by
  apply map_noop
  intro p hp
  have hb := (hWFp p hp).2
  rw [if_neg]
  omega

lemma findNoneTK (db : DB) (m : Nat) (k : String) (hm : db.nextId ≤ m)
    (hWFp : ∀ p ∈ db.positions, p.triangleId < db.nextId ∧ p.id < db.nextId) :
    db.positions.find? (fun p => p.triangleId = m && p.positionKey = k) = none := by
  rw [List.find?_eq_none]
  intro p hp
  have hb := (hWFp p hp).1
  simp only [Bool.and_eq_true, decide_eq_true_eq, not_and]
  intro h
  omega

lemma cycle_split_main
    (db : DB) (tid : Nat) (T : Triangle)
    (i1 i2 i3 i4 i5 i6 i7 i8 i9 i10 i11 i12 i13 i14 i15 : Nat)
    (vA vAB1 vAB2 vB1C1 vB1C2 vB2C1 vB2C2 vC1D1 vC1D2 vC2D1 vC2D2 vC3D1 vC3D2 vC4D1 vC4D2 : String)
    (hT : findTriangle db tid = some T)
    (hpos : db.positions.filter (fun p => p.triangleId = tid)
      = fullTriangle tid i1 i2 i3 i4 i5 i6 i7 i8 i9 i10 i11 i12 i13 i14 i15 vA vAB1 vAB2 vB1C1 vB1C2 vB2C1 vB2C2 vC1D1 vC1D2 vC2D1 vC2D2 vC3D1 vC3D2 vC4D1 vC4D2)
    (hWFp : ∀ p ∈ db.positions, p.triangleId < db.nextId ∧ p.id < db.nextId)
    (husers : ∀ v ∈ [vAB1, vAB2, vB1C1, vB1C2, vB2C1, vB2C2, vC1D1, vC1D2, vC2D1, vC2D2, vC3D1, vC3D2, vC4D1, vC4D2], (findUser db v).isSome) :
    (cycleTriangle db tid).triangles
      = db.triangles.filter (fun t => !(t.id = tid)) ++
        [⟨db.nextId, T.planType, false, false, none⟩,
         ⟨db.nextId + 16, T.planType, false, false, none⟩] ∧
    (cycleTriangle db tid).positions
      = db.positions.filter (fun p => !(p.triangleId = tid)) ++
        leftSuccessor db.nextId vAB1 vB1C1 vB1C2 vC1D1 vC1D2 vC2D1 vC2D2 ++
        rightSuccessor (db.nextId + 16) vAB2 vB2C1 vB2C2 vC3D1 vC3D2 vC4D1 vC4D2 := by
  have hmemA : (⟨i1, tid, 1, 0, "A", some vA⟩ : Position)
      ∈ db.positions.filter (fun p => p.triangleId = tid) := by
    rw [hpos]
    simp [fullTriangle]
  have htid : tid < db.nextId := (hWFp _ (List.mem_filter.mp hmemA).1).1
  have hsnap : positionsOf db tid = fullTriangle tid i1 i2 i3 i4 i5 i6 i7 i8 i9 i10 i11 i12 i13 i14 i15 vA vAB1 vAB2 vB1C1 vB1C2 vB2C1 vB2C2 vC1D1 vC1D2 vC2D1 vC2D2 vC3D1 vC3D2 vC4D1 vC4D2 := by
    unfold positionsOf
    rw [hpos]
    exact sortPos_fullTriangle tid i1 i2 i3 i4 i5 i6 i7 i8 i9 i10 i11 i12 i13 i14 i15 vA vAB1 vAB2 vB1C1 vB1C2 vB2C1 vB2C2 vC1D1 vC1D2 vC2D1 vC2D2 vC3D1 vC3D2 vC4D1 vC4D2
  obtain ⟨U1, hU1⟩ := Option.isSome_iff_exists.mp (husers vAB1 (by simp))
  have hU1f : db.users.find? (fun u => u.id = vAB1) = some U1 := hU1
  have hU1id : U1.id = vAB1 := by simpa using List.find?_some hU1f
  obtain ⟨U2, hU2⟩ := Option.isSome_iff_exists.mp (husers vAB2 (by simp))
  have hU2f : db.users.find? (fun u => u.id = vAB2) = some U2 := hU2
  have hU2id : U2.id = vAB2 := by simpa using List.find?_some hU2f
  obtain ⟨U3, hU3⟩ := Option.isSome_iff_exists.mp (husers vB1C1 (by simp))
  have hU3f : db.users.find? (fun u => u.id = vB1C1) = some U3 := hU3
  have hU3id : U3.id = vB1C1 := by simpa using List.find?_some hU3f
  obtain ⟨U4, hU4⟩ := Option.isSome_iff_exists.mp (husers vB1C2 (by simp))
  have hU4f : db.users.find? (fun u => u.id = vB1C2) = some U4 := hU4
  have hU4id : U4.id = vB1C2 := by simpa using List.find?_some hU4f
  obtain ⟨U5, hU5⟩ := Option.isSome_iff_exists.mp (husers vB2C1 (by simp))
  have hU5f : db.users.find? (fun u => u.id = vB2C1) = some U5 := hU5
  have hU5id : U5.id = vB2C1 := by simpa using List.find?_some hU5f
  obtain ⟨U6, hU6⟩ := Option.isSome_iff_exists.mp (husers vB2C2 (by simp))
  have hU6f : db.users.find? (fun u => u.id = vB2C2) = some U6 := hU6
  have hU6id : U6.id = vB2C2 := by simpa using List.find?_some hU6f
  obtain ⟨U7, hU7⟩ := Option.isSome_iff_exists.mp (husers vC1D1 (by simp))
  have hU7f : db.users.find? (fun u => u.id = vC1D1) = some U7 := hU7
  have hU7id : U7.id = vC1D1 := by simpa using List.find?_some hU7f
  obtain ⟨U8, hU8⟩ := Option.isSome_iff_exists.mp (husers vC1D2 (by simp))
  have hU8f : db.users.find? (fun u => u.id = vC1D2) = some U8 := hU8
  have hU8id : U8.id = vC1D2 := by simpa using List.find?_some hU8f
  obtain ⟨U9, hU9⟩ := Option.isSome_iff_exists.mp (husers vC2D1 (by simp))
  have hU9f : db.users.find? (fun u => u.id = vC2D1) = some U9 := hU9
  have hU9id : U9.id = vC2D1 := by simpa using List.find?_some hU9f
  obtain ⟨U10, hU10⟩ := Option.isSome_iff_exists.mp (husers vC2D2 (by simp))
  have hU10f : db.users.find? (fun u => u.id = vC2D2) = some U10 := hU10
  have hU10id : U10.id = vC2D2 := by simpa using List.find?_some hU10f
  obtain ⟨U11, hU11⟩ := Option.isSome_iff_exists.mp (husers vC3D1 (by simp))
  have hU11f : db.users.find? (fun u => u.id = vC3D1) = some U11 := hU11
  have hU11id : U11.id = vC3D1 := by simpa using List.find?_some hU11f
  obtain ⟨U12, hU12⟩ := Option.isSome_iff_exists.mp (husers vC3D2 (by simp))
  have hU12f : db.users.find? (fun u => u.id = vC3D2) = some U12 := hU12
  have hU12id : U12.id = vC3D2 := by simpa using List.find?_some hU12f
  obtain ⟨U13, hU13⟩ := Option.isSome_iff_exists.mp (husers vC4D1 (by simp))
  have hU13f : db.users.find? (fun u => u.id = vC4D1) = some U13 := hU13
  have hU13id : U13.id = vC4D1 := by simpa using List.find?_some hU13f
  obtain ⟨U14, hU14⟩ := Option.isSome_iff_exists.mp (husers vC4D2 (by simp))
  have hU14f : db.users.find? (fun u => u.id = vC4D2) = some U14 := hU14
  have hU14id : U14.id = vC4D2 := by simpa using List.find?_some hU14f
  have hab1 : ((positionsOf db tid).find? (fun p => p.level = 2 && p.position = 0)).bind
      (fun p => p.userId.bind (findUser db)) = some U1 := by
    rw [hsnap]
    simp [fullTriangle, findUser, hU1f]
  have hab2 : ((positionsOf db tid).find? (fun p => p.level = 2 && p.position = 1)).bind
      (fun p => p.userId.bind (findUser db)) = some U2 := by
    rw [hsnap]
    simp [fullTriangle, findUser, hU2f]
  have e1 := mapNoopLPK db db.nextId 1 0 vAB1 (Nat.le_refl _) hWFp
  have e2 := mapNoopLPK db (db.nextId + 16) 1 0 vAB2 (by omega) hWFp
  have e3 := mapNoopId db (db.nextId + 2) vB1C1 (by omega) hWFp
  have e4 := mapNoopId db (db.nextId + 3) vB1C2 (by omega) hWFp
  have e5 := mapNoopId db (db.nextId + 4) vC1D1 (by omega) hWFp
  have e6 := mapNoopId db (db.nextId + 5) vC1D2 (by omega) hWFp
  have e7 := mapNoopId db (db.nextId + 6) vC2D1 (by omega) hWFp
  have e8 := mapNoopId db (db.nextId + 7) vC2D2 (by omega) hWFp
  have e9 := mapNoopId db (db.nextId + 18) vB2C1 (by omega) hWFp
  have e10 := mapNoopId db (db.nextId + 19) vB2C2 (by omega) hWFp
  have e11 := mapNoopId db (db.nextId + 20) vC3D1 (by omega) hWFp
  have e12 := mapNoopId db (db.nextId + 21) vC3D2 (by omega) hWFp
  have e13 := mapNoopId db (db.nextId + 22) vC4D1 (by omega) hWFp
  have e14 := mapNoopId db (db.nextId + 23) vC4D2 (by omega) hWFp
  have f1 := findNoneTK db db.nextId "AB1" (Nat.le_refl _) hWFp
  have f2 := findNoneTK db db.nextId "AB2" (Nat.le_refl _) hWFp
  have f3 := findNoneTK db db.nextId "B1C1" (Nat.le_refl _) hWFp
  have f4 := findNoneTK db db.nextId "B1C2" (Nat.le_refl _) hWFp
  have f5 := findNoneTK db db.nextId "B2C1" (Nat.le_refl _) hWFp
  have f6 := findNoneTK db db.nextId "B2C2" (Nat.le_refl _) hWFp
  have f7 := findNoneTK db (db.nextId + 16) "AB1" (by omega) hWFp
  have f8 := findNoneTK db (db.nextId + 16) "AB2" (by omega) hWFp
  have f9 := findNoneTK db (db.nextId + 16) "B1C1" (by omega) hWFp
  have f10 := findNoneTK db (db.nextId + 16) "B1C2" (by omega) hWFp
  have f11 := findNoneTK db (db.nextId + 16) "B2C1" (by omega) hWFp
  have f12 := findNoneTK db (db.nextId + 16) "B2C2" (by omega) hWFp
  have hne1 : ¬(db.nextId = tid) := by omega
  have hne2 : ¬(db.nextId + 16 = tid) := by omega
  simp only [Bool.and_eq_true, decide_eq_true_eq] at e1 e2
  set_option maxHeartbeats 4000000 in
  simp [cycleTriangle, hab1, hab2, hT, hsnap, fullTriangle, createTriangle_eq,
    freshPositions, setByLPK, promoteOne, ab1SubtreeMap, ab2SubtreeMap,
    leftSuccessor, rightSuccessor, List.find?_append, hU1, hU1f, hU1id, hU2, hU2f, hU2id, hU3, hU3f, hU3id, hU4, hU4f, hU4id, hU5, hU5f, hU5id, hU6, hU6f, hU6id, hU7, hU7f, hU7id, hU8, hU8f, hU8id, hU9, hU9f, hU9id, hU10, hU10f, hU10id, hU11, hU11f, hU11id, hU12, hU12f, hU12id, hU13, hU13f, hU13id, hU14, hU14f, hU14id, e1, e2, e3, e4, e5, e6, e7, e8, e9, e10, e11, e12, e13, e14, f1, f2, f3, f4, f5, f6, f7, f8, f9, f10, f11, f12, hne1, hne2,
    -List.map_map, -List.find?_map]

lemma findReferrer_cases (db : DB) (tok : String) :
    (∀ u, isValidObjectId tok = true →
       db.users.find? (fun v => v.id = tok) = some u →
       findReferrer db tok = some u) ∧
    (∀ u, (isValidObjectId tok = false ∨ db.users.find? (fun v => v.id = tok) = none) →
       db.users.find? (fun v => v.username = tok) = some u →
       findReferrer db tok = some u) ∧
    (∀ u, (isValidObjectId tok = false ∨ db.users.find? (fun v => v.id = tok) = none) →
       db.users.find? (fun v => v.username = tok) = none →
       db.users.find? (fun v => v.referralCode = tok) = some u →
       findReferrer db tok = some u) ∧
    ((isValidObjectId tok = false ∨ db.users.find? (fun v => v.id = tok) = none) →
       db.users.find? (fun v => v.username = tok) = none →
       db.users.find? (fun v => v.referralCode = tok) = none →
       findReferrer db tok =
         (if 3 ≤ tok.length then
            db.users.find? (fun v => endsWithCL (lowerStr v.id) (lowerStr tok))
          else none)) := by
  refine ⟨?_, ?_, ?_, ?_⟩
  · intro u hvalid hfind
    simp [findReferrer, hvalid, hfind]
  · intro u h1 h2
    rcases h1 with hv | hnone
    · simp [findReferrer, hv, h2]
    · simp [findReferrer, hnone, h2]
  · intro u h1 h2 h3
    rcases h1 with hv | hnone
    · simp [findReferrer, hv, h2, h3]
    · simp [findReferrer, hnone, h2, h3]
  · intro h1 h2 h3
    by_cases hlen : 3 ≤ tok.length
    · rcases h1 with hv | hnone
      · cases hfind : db.users.find? (fun v => endsWithCL (lowerStr v.id) (lowerStr tok)) with
        | none => simp [findReferrer, hv, h2, h3, hlen, hfind]
        | some u => simp [findReferrer, hv, h2, h3, hlen, hfind]
      · cases hfind : db.users.find? (fun v => endsWithCL (lowerStr v.id) (lowerStr tok)) with
        | none => simp [findReferrer, hnone, h2, h3, hlen, hfind]
        | some u => simp [findReferrer, hnone, h2, h3, hlen, hfind]
    · rcases h1 with hv | hnone
      · simp [findReferrer, hv, h2, h3, hlen]
      · simp [findReferrer, hnone, h2, h3, hlen]

lemma promoteOne_skel (db : DB) (s : List Position) (us : List User)
    (pr : String × String) (nt : Nat) :
    (promoteOne db s us pr nt).positions.map (fun p => (p.id, p.triangleId))
      = db.positions.map (fun p => (p.id, p.triangleId)) := by
  unfold promoteOne
  split
  · rfl
  · split
    · rfl
    · split
      · rfl
      · rename_i newPos heq
        rw [List.map_map]
        apply List.map_congr_left
        intro a _
        by_cases h : a.id = newPos.id
        · simp [Function.comp, h]
        · simp [Function.comp, h]

lemma promoteFold_skel (l : List (String × String)) (db : DB)
    (s : List Position) (us : List User) (nt : Nat) :
    ((l.foldl (fun d pr => promoteOne d s us pr nt) db).positions.map
      (fun p => (p.id, p.triangleId)))
      = db.positions.map (fun p => (p.id, p.triangleId)) := by
  induction l generalizing db with
  | nil => rfl
  | cons pr prs ih =>
    simp only [List.foldl_cons]
    rw [ih (promoteOne db s us pr nt), promoteOne_skel]

lemma setByLPK_skel (db : DB) (tid lvl idx : Nat) (uid : String) :
    (setByLPK db tid lvl idx uid).positions.map (fun p => (p.id, p.triangleId))
      = db.positions.map (fun p => (p.id, p.triangleId)) := by
  unfold setByLPK
  rw [List.map_map]
  apply List.map_congr_left
  intro a _
  by_cases h : (a.triangleId = tid && a.level = lvl && a.position = idx) = true
  · simp [Function.comp, h]
  · simp [Function.comp, h]

lemma cycle_positions_chars (db : DB) (tid : Nat)
    (hne : positionsOf db tid ≠ []) (ht : (findTriangle db tid).isSome) :
    ∀ q ∈ (cycleTriangle db tid).positions,
      ¬(q.triangleId = tid) ∧
      (db.nextId ≤ q.id ∨ ∃ p ∈ db.positions, p.id = q.id ∧ p.triangleId = q.triangleId) := by
  intro q hq
  simp only [cycleTriangle] at hq
  rcases hsc : (if (positionsOf db tid).isEmpty = true then none else findTriangle db tid) with _ | tri
  · exfalso
    rcases hl : positionsOf db tid with _ | ⟨a, as⟩
    · exact hne hl
    · rw [hl] at hsc
      simp at hsc
      rw [hsc] at ht
      cases ht
  · rw [hsc] at hq
    simp only [List.mem_filter, Bool.not_eq_true'] at hq
    obtain ⟨hq3, hnottid⟩ := hq
    refine ⟨by simpa using hnottid, ?_⟩
    have hskel : ∀ dbz : DB,
        (dbz.positions.map (fun p => (p.id, p.triangleId))
          = ((db.positions ++ freshPositions db.nextId db.nextId)
              ++ freshPositions (db.nextId + 16) (db.nextId + 16)).map
              (fun p => (p.id, p.triangleId))) →
        q ∈ dbz.positions →
        (db.nextId ≤ q.id ∨ ∃ p ∈ db.positions, p.id = q.id ∧ p.triangleId = q.triangleId) := by
      intro dbz hmap hmem
      have : (q.id, q.triangleId) ∈ dbz.positions.map (fun p => (p.id, p.triangleId)) :=
        List.mem_map_of_mem _ hmem
      rw [hmap] at this
      simp only [List.map_append, List.mem_append] at this
      rcases this with (hin | hin) | hin
      · right
        obtain ⟨p, hp, hpe⟩ := List.mem_map.mp hin
        injection hpe with h1 h2
        exact ⟨p, hp, h1, h2⟩
      · left
        obtain ⟨p, hp, hpe⟩ := List.mem_map.mp hin
        injection hpe with h1 h2
        simp [freshPositions] at hp
        rcases hp with rfl|rfl|rfl|rfl|rfl|rfl|rfl|rfl|rfl|rfl|rfl|rfl|rfl|rfl|rfl <;>
          dsimp only at h1 h2 <;> omega
      · left
        obtain ⟨p, hp, hpe⟩ := List.mem_map.mp hin
        injection hpe with h1 h2
        simp [freshPositions] at hp
        rcases hp with rfl|rfl|rfl|rfl|rfl|rfl|rfl|rfl|rfl|rfl|rfl|rfl|rfl|rfl|rfl <;>
          dsimp only at h1 h2 <;> omega
    rcases hab : (((positionsOf db tid).find? (fun p => p.level = 2 && p.position = 0)).bind
        (fun p => p.userId.bind (findUser db))) with _ | u1
    · rw [hab] at hq3
      right
      exact ⟨q, hq3, rfl, rfl⟩
    · rcases hab2 : (((positionsOf db tid).find? (fun p => p.level = 2 && p.position = 1)).bind
          (fun p => p.userId.bind (findUser db))) with _ | u2
      · rw [hab, hab2] at hq3
        right
        exact ⟨q, hq3, rfl, rfl⟩
      · rw [hab, hab2] at hq3
        refine hskel _ ?_ hq3
        rw [promoteFold_skel, promoteFold_skel, setByLPK_skel, setByLPK_skel,
          createTriangle_eq, createTriangle_eq]

lemma handle_shape (db : DB) (tid : Nat) :
    ∃ dbX : DB, handleTriangleCompletion db tid = cycleTriangle dbX tid ∧
      dbX.positions = db.positions ∧ dbX.nextId = db.nextId ∧
      dbX.triangles = db.triangles.map (fun t =>
        if t.id = tid then { t with isComplete := true, completedAt := some db.clock }
        else t) := by
  simp only [handleTriangleCompletion]
  refine ⟨_, rfl, ?_, ?_, ?_⟩ <;>
    (split
     · rfl
     · split
       · rfl
       · split
         · rfl
         · split
           · rfl
           · rfl)

lemma createTriangle_WF (db : DB) (pt : String)
    (hWF1 : ∀ p ∈ db.positions, p.triangleId < db.nextId ∧ p.id < db.nextId)
    (hWF2 : (db.positions.map (fun p => p.id)).Nodup) :
    (∀ p ∈ (createTriangle db pt).2.positions,
       p.triangleId < (createTriangle db pt).2.nextId ∧
       p.id < (createTriangle db pt).2.nextId) ∧
    ((createTriangle db pt).2.positions.map (fun p => p.id)).Nodup := by
  rw [createTriangle_eq]
  constructor
  · intro p hp
    rcases List.mem_append.mp hp with h | h
    · have := hWF1 p h
      dsimp only
      omega
    · simp [freshPositions] at h
      rcases h with rfl|rfl|rfl|rfl|rfl|rfl|rfl|rfl|rfl|rfl|rfl|rfl|rfl|rfl|rfl <;>
        dsimp only <;> omega
  · dsimp only
    rw [List.map_append, List.nodup_append]
    refine ⟨hWF2, ?_, ?_⟩
    · simp [freshPositions]
    · intro a ha hb
      obtain ⟨p, hp, rfl⟩ := List.mem_map.mp ha
      have hlt := (hWF1 p hp).2
      simp [freshPositions] at hb
      omega

lemma assignInto_c10 (db0 : DB) (uid : String) (t : Triangle) (pos : Position) (db2 : DB)
    (hWF1 : ∀ p ∈ db0.positions, p.triangleId < db0.nextId ∧ p.id < db0.nextId)
    (hWF2 : (db0.positions.map (fun p => p.id)).Nodup)
    (hok : assignIntoTriangle db0 uid t = .ok (pos, db2)) :
    pos.userId = none ∧
    (∀ q ∈ db2.positions, q.id = pos.id → q.userId = some uid) ∧
    ((findTriangle db2 pos.triangleId).isSome →
       ∃ q ∈ db2.positions, q.id = pos.id ∧ q.userId = some uid) := by
  have hos := assignInto_inv hok
  have hs := openSlot_spec hos
  simp only [assignIntoTriangle, hos, Except.ok.injEq, Prod.mk.injEq] at hok
  obtain ⟨-, hdb2⟩ := hok
  have hmem1 : (⟨pos.id, pos.triangleId, pos.level, pos.position, pos.positionKey, some uid⟩ :
      Position) ∈ db0.positions.map
        (fun p => if p.id = pos.id then { p with userId := some uid } else p) := by
    have := List.mem_map_of_mem
      (fun p => if p.id = pos.id then { p with userId := some uid } else p) hs.1
    simpa using this
  have hq1 : ∀ q ∈ db0.positions.map
      (fun p => if p.id = pos.id then { p with userId := some uid } else p),
      q.id = pos.id → q.userId = some uid := by
    intro q hq hid
    obtain ⟨p, hp, rfl⟩ := List.mem_map.mp hq
    by_cases h : p.id = pos.id
    · simp [h]
    · rw [if_neg h] at hid ⊢
      exact absurd hid h
  obtain ⟨dbX, hsh, hXpos, hXnext, hXtri⟩ := handle_shape
    ({ db0 with positions := db0.positions.map (fun p => if p.id = pos.id then { p with userId := some uid } else p) }) t.id
  have hmemX : (⟨pos.id, pos.triangleId, pos.level, pos.position, pos.positionKey, some uid⟩ :
      Position) ∈ dbX.positions := by
    rw [hXpos]
    exact hmem1
  have hne2 : positionsOf dbX t.id ≠ [] := by
    intro hnil
    simp only [positionsOf, sortPos_eq_nil_iff] at hnil
    have hmf : (⟨pos.id, pos.triangleId, pos.level, pos.position, pos.positionKey, some uid⟩ :
        Position) ∈ dbX.positions.filter (fun p => p.triangleId = t.id) := by
      rw [List.mem_filter]
      exact ⟨hmemX, by simp [hs.2.1]⟩
    rw [hnil] at hmf
    cases hmf
  have hcycF : findTriangle dbX t.id = none → cycleTriangle dbX t.id = dbX := by
    intro hft
    have hsc : (if (positionsOf dbX t.id).isEmpty = true then none
        else findTriangle dbX t.id) = none := by
      rw [if_neg]
      · exact hft
      · rcases hl : positionsOf dbX t.id with _ | ⟨a, as⟩
        · exact absurd hl hne2
        · simp [hl]
    simp only [cycleTriangle, hsc]
  refine ⟨hs.2.2.1, ?_, ?_⟩
  · split at hdb2
    · rw [hsh] at hdb2
      cases hft : findTriangle dbX t.id with
      | none =>
        rw [hcycF hft] at hdb2
        intro q hq hid
        rw [← hdb2, hXpos] at hq
        exact hq1 q hq hid
      | some tri =>
        have hsome : (findTriangle dbX t.id).isSome := by rw [hft]; rfl
        have hchars := cycle_positions_chars dbX t.id hne2 hsome
        intro q hq hid
        rw [← hdb2] at hq
        have hch := hchars q hq
        exfalso
        rcases hch.2 with hbig | ⟨p, hp, hpid, hptri⟩
        · rw [hXnext] at hbig
          have := (hWF1 pos hs.1).2
          dsimp only at hbig
          omega
        · rw [hXpos] at hp
          obtain ⟨p0, hp0, rfl⟩ := List.mem_map.mp hp
          have hidp : p0.id = pos.id := by
            by_cases h : p0.id = pos.id
            · exact h
            · rw [if_neg h] at hpid
              rw [hpid] at h
              exact absurd hid h
          have hp0eq : p0 = pos := List.inj_on_of_nodup_map hWF2 hp0 hs.1 hidp
          subst hp0eq
          rw [if_pos hidp] at hptri
          dsimp only at hptri
          rw [hs.2.1] at hptri
          exact hch.1 hptri.symm
    · intro q hq hid
      rw [← hdb2] at hq
      exact hq1 q hq hid
  · split at hdb2
    · rw [hsh] at hdb2
      cases hft : findTriangle dbX t.id with
      | none =>
        rw [hcycF hft] at hdb2
        intro _
        refine ⟨⟨pos.id, pos.triangleId, pos.level, pos.position, pos.positionKey, some uid⟩,
          ?_, rfl, rfl⟩
        rw [← hdb2]
        exact hmemX
      | some tri =>
        have hsome : (findTriangle dbX t.id).isSome := by rw [hft]; rfl
        have hgone := cycleTriangle_gone hne2 hsome
        intro hguard
        exfalso
        rw [← hdb2] at hguard
        have hnone : findTriangle (cycleTriangle dbX t.id) pos.triangleId = none := by
          rw [hs.2.1]
          exact hgone.1
        rw [hnone] at hguard
        cases hguard
    · intro _
      refine ⟨⟨pos.id, pos.triangleId, pos.level, pos.position, pos.positionKey, some uid⟩,
        ?_, rfl, rfl⟩
      rw [← hdb2]
      exact hmem1

/-- Claim C1: cycling a completed triangle whose AB1 and AB2 slots are occupied by
X and Y creates exactly two new triangles of the same plan, puts X at position A of
the first and Y at position A of the second, transfers every occupant named by the
left promotion map into the mapped slot of the first successor and every occupant
named by the right promotion map into the mapped slot of the second, and afterwards
the old triangle and all 15 of its positions no longer exist in the store. -/
theorem C1_split_correct
    (db : DB) (tid : Nat) (T : Triangle)
    (i1 i2 i3 i4 i5 i6 i7 i8 i9 i10 i11 i12 i13 i14 i15 : Nat)
    (vA vAB1 vAB2 vB1C1 vB1C2 vB2C1 vB2C2 vC1D1 vC1D2 vC2D1 vC2D2 vC3D1 vC3D2 vC4D1 vC4D2 : String)
    (hT : findTriangle db tid = some T)
    (hpos : db.positions.filter (fun p => p.triangleId = tid)
      = fullTriangle tid i1 i2 i3 i4 i5 i6 i7 i8 i9 i10 i11 i12 i13 i14 i15 vA vAB1 vAB2 vB1C1 vB1C2 vB2C1 vB2C2 vC1D1 vC1D2 vC2D1 vC2D2 vC3D1 vC3D2 vC4D1 vC4D2)
    (hWFp : ∀ p ∈ db.positions, p.triangleId < db.nextId ∧ p.id < db.nextId)
    (husers : ∀ v ∈ [vAB1, vAB2, vB1C1, vB1C2, vB2C1, vB2C2, vC1D1, vC1D2, vC2D1, vC2D2, vC3D1, vC3D2, vC4D1, vC4D2], (findUser db v).isSome) :
    (cycleTriangle db tid).triangles
      = db.triangles.filter (fun t => !(t.id = tid)) ++
        [⟨db.nextId, T.planType, false, false, none⟩,
         ⟨db.nextId + 16, T.planType, false, false, none⟩] ∧
    (cycleTriangle db tid).positions
      = db.positions.filter (fun p => !(p.triangleId = tid)) ++
        leftSuccessor db.nextId vAB1 vB1C1 vB1C2 vC1D1 vC1D2 vC2D1 vC2D2 ++
        rightSuccessor (db.nextId + 16) vAB2 vB2C1 vB2C2 vC3D1 vC3D2 vC4D1 vC4D2 ∧
    findTriangle (cycleTriangle db tid) tid = none ∧
    (cycleTriangle db tid).positions.filter (fun p => p.triangleId = tid) = [] := by
  have h := cycle_split_main db tid T i1 i2 i3 i4 i5 i6 i7 i8 i9 i10 i11 i12 i13 i14 i15 vA vAB1 vAB2 vB1C1 vB1C2 vB2C1 vB2C2 vC1D1 vC1D2 vC2D1 vC2D2 vC3D1 vC3D2 vC4D1 vC4D2 hT hpos hWFp husers
  have hmemA : (⟨i1, tid, 1, 0, "A", some vA⟩ : Position)
      ∈ db.positions.filter (fun p => p.triangleId = tid) := by
    rw [hpos]
    simp [fullTriangle]
  have htid : tid < db.nextId := (hWFp _ (List.mem_filter.mp hmemA).1).1
  refine ⟨h.1, h.2, ?_, ?_⟩
  · unfold findTriangle
    rw [h.1, List.find?_eq_none]
    intro t ht
    rcases List.mem_append.mp ht with hl | hr
    · simpa using (List.mem_filter.mp hl).2
    · simp only [List.mem_cons, List.mem_singleton] at hr
      rcases hr with rfl | rfl | hcontra
      · simp
        omega
      · simp
        omega
      · cases hcontra
  · rw [h.2, List.filter_eq_nil_iff]
    intro p hp
    rcases List.mem_append.mp hp with hl | hr
    · rcases List.mem_append.mp hl with hll | hlr
      · simpa using (List.mem_filter.mp hll).2
      · simp only [leftSuccessor] at hlr
        simp only [List.mem_cons, List.mem_singleton] at hlr
        rcases hlr with rfl|rfl|rfl|rfl|rfl|rfl|rfl|rfl|rfl|rfl|rfl|rfl|rfl|rfl|rfl|h0
        all_goals first
        | (simp; omega)
        | cases h0
    · simp only [rightSuccessor] at hr
      simp only [List.mem_cons, List.mem_singleton] at hr
      rcases hr with rfl|rfl|rfl|rfl|rfl|rfl|rfl|rfl|rfl|rfl|rfl|rfl|rfl|rfl|rfl|h0
      all_goals first
      | (simp; omega)
      | cases h0

/-- Witness for C1 on a concrete fully occupied triangle. -/
theorem C1_split_correct_witness :
    (cycleTriangle dbSeed 0).triangles
      = [⟨16, "K1", false, false, none⟩, ⟨32, "K1", false, false, none⟩] ∧
    (cycleTriangle dbSeed 0).positions
      = leftSuccessor 16 "u2" "u4" "u5" "u8" "u9" "u10" "u11" ++
        rightSuccessor 32 "u3" "u6" "u7" "u12" "u13" "u14" "u15" ∧
    findTriangle (cycleTriangle dbSeed 0) 0 = none := by
  have h := C1_split_correct dbSeed 0 ⟨0, "K1", false, false, none⟩
    1 2 3 4 5 6 7 8 9 10 11 12 13 14 15 "u1" "u2" "u3" "u4" "u5" "u6" "u7" "u8" "u9" "u10" "u11" "u12" "u13" "u14" "u15" rfl rfl (by decide) (by decide)
  refine ⟨?_, ?_, h.2.2.1⟩
  · rw [h.1]
    rfl
  · rw [h.2.1]
    rfl

/-- Claim C2: placement target selection.  If the candidate referrer (the argument
when given, else the stored upline) exists and the triangle of that referrer's most
recently created position matches the user's plan, is not complete, and has an open
slot, the user is placed into that triangle; otherwise into the oldest open triangle
of the user's plan; otherwise a brand-new triangle of the user's plan is created and
the user is placed there. -/
theorem C2_target_selection (db : DB) (userId : String) (referrerId : Option String)
    (user : User)
    (hu : findUser db userId = some user)
    (hWF : ∀ p ∈ db.positions, p.triangleId < db.nextId ∧ p.id < db.nextId) :
    (∀ rid ru rp T, jsOrTok referrerId user.uplineId = some rid →
       findUser db rid = some ru →
       latestPositionOf db rid = some rp →
       findTriangle db rp.triangleId = some T →
       T.planType = user.plan → T.isComplete = false →
       (openSlot db rp.triangleId).isSome →
       ∃ pos db2, assignUserToTriangle db userId referrerId = .ok (pos, db2) ∧
         pos.triangleId = T.id) ∧
    (refTargetTriangle db user referrerId = none →
       ∀ T, oldestOpenTriangle db user.plan = some T →
       ∃ pos db2, assignUserToTriangle db userId referrerId = .ok (pos, db2) ∧
         pos.triangleId = T.id) ∧
    (refTargetTriangle db user referrerId = none →
       oldestOpenTriangle db user.plan = none →
       ∃ pos db2, assignUserToTriangle db userId referrerId = .ok (pos, db2) ∧
         pos.triangleId = db.nextId ∧ pos.positionKey = "A" ∧
         (∃ t2 ∈ db2.triangles, t2.id = db.nextId ∧ t2.planType = user.plan) ∧
         (∃ q ∈ db2.positions, q.triangleId = db.nextId ∧ q.userId = some userId)) := by
  refine ⟨?_, ?_, ?_⟩
  · intro rid ru rp T hj hru hrp hT hplan hcompl hslot
    obtain ⟨p, hos⟩ := Option.isSome_iff_exists.mp hslot
    have htid : T.id = rp.triangleId := by simpa using List.find?_some hT
    have href : refTargetTriangle db user referrerId = some T := by
      simp [refTargetTriangle, hj, hru, hrp, hT, hplan, hcompl, hos]
    have hos2 : openSlot db T.id = some p := by rw [htid]; exact hos
    obtain ⟨db2, hok⟩ := assignInto_ok db userId T p hos2
    have hp := openSlot_spec hos2
    refine ⟨p, db2, ?_, ?_⟩
    · simp only [assignUserToTriangle, hu, href]
      exact hok
    · exact hp.2.1
  · intro hnone T hold
    obtain ⟨hplan, hcompl, hslot⟩ := oldestOpen_props hold
    obtain ⟨p, hos⟩ := Option.isSome_iff_exists.mp hslot
    obtain ⟨db2, hok⟩ := assignInto_ok db userId T p hos
    have hp := openSlot_spec hos
    refine ⟨p, db2, ?_, ?_⟩
    · simp only [assignUserToTriangle, hu, hnone, hold]
      exact hok
    · exact hp.2.1
  · intro hnone holdnone
    have hpre : db.positions.filter
        (fun p => p.triangleId = db.nextId && p.userId.isNone) = [] := by
      rw [List.filter_eq_nil_iff]
      intro p hp
      have := (hWF p hp).1
      simp [Nat.ne_of_lt this]
    have hos : openSlot (createTriangle db user.plan).2 db.nextId
        = some ⟨db.nextId + 1, db.nextId, 1, 0, "A", none⟩ := by
      rw [createTriangle_eq]
      show (sortPos ((db.positions ++ freshPositions db.nextId db.nextId).filter
        (fun p => p.triangleId = db.nextId && p.userId.isNone))).head? = _
      rw [List.filter_append, hpre, List.nil_append]
      rw [show (freshPositions db.nextId db.nextId).filter
            (fun p => p.triangleId = db.nextId && p.userId.isNone)
          = freshPositions db.nextId db.nextId by simp [freshPositions]]
      rfl
    have hmapped : (db.positions ++ freshPositions db.nextId db.nextId).map
        (fun p => if p.id = db.nextId + 1 then { p with userId := some userId } else p)
      = db.positions ++
        (⟨db.nextId + 1, db.nextId, 1, 0, "A", some userId⟩ :
          Position) :: (freshPositions db.nextId db.nextId).tail := by
      rw [List.map_append]
      have hpren : db.positions.map
          (fun p => if p.id = db.nextId + 1 then { p with userId := some userId } else p)
        = db.positions := by
        apply map_noop
        intro p hp
        have hlt := (hWF p hp).2
        rw [if_neg (by omega)]
      rw [hpren]
      simp [freshPositions]
    have hcnt : (db.positions ++
        (⟨db.nextId + 1, db.nextId, 1, 0, "A", some userId⟩ :
          Position) :: (freshPositions db.nextId db.nextId).tail).countP
        (fun p => p.triangleId = db.nextId && p.userId.isSome) = 1 := by
      rw [List.countP_append]
      have hpre0 : db.positions.countP
          (fun p => p.triangleId = db.nextId && p.userId.isSome) = 0 := by
        rw [List.countP_eq_zero]
        intro p hp
        have := (hWF p hp).1
        simp [Nat.ne_of_lt this]
      rw [hpre0]
      simp [freshPositions, List.countP_cons]
    simp only [assignUserToTriangle, hu, hnone, holdnone, assignIntoTriangle,
      createTriangle_eq] at *
    rw [hos]
    simp only [countFilled, hmapped, hcnt]
    rw [if_neg (by decide)]
    refine ⟨⟨db.nextId + 1, db.nextId, 1, 0, "A", none⟩,
      { db with
        triangles := db.triangles ++
          [{ id := db.nextId, planType := user.plan, isComplete := false,
             payoutProcessed := false, completedAt := none }],
        positions := db.positions ++
          (⟨db.nextId + 1, db.nextId, 1, 0, "A", some userId⟩ :
            Position) :: (freshPositions db.nextId db.nextId).tail,
        nextId := db.nextId + 16 },
      rfl, rfl, rfl, ?_, ?_⟩
    · refine ⟨{ id := db.nextId, planType := user.plan, isComplete := false,
                payoutProcessed := false, completedAt := none }, ?_, rfl, rfl⟩
      exact List.mem_append_right _ (List.mem_singleton_self _)
    · refine ⟨⟨db.nextId + 1, db.nextId, 1, 0, "A", some userId⟩, ?_, rfl, rfl⟩
      exact List.mem_append_right _ (List.mem_cons_self _ _)

/-- Witness for C2: the fallback branch places the 15th user into the oldest open
triangle. -/
theorem C2_target_selection_witness :
    (assignUserToTriangle dbSeed14 "u15" none).map (fun r => r.1.triangleId)
      = .ok 0 := by
  obtain ⟨pos, db2, hok, htri⟩ :=
    (C2_target_selection dbSeed14 "u15" none (mkRunUser 15) rfl (by decide)).2.1
      rfl ⟨0, "K1", false, false, none⟩ rfl
  rw [hok]
  simp only [Except.map, htri]

/-- Claim C3: on completion with position A occupied and the plan record present
with payout p, the occupant's balance and totalEarned each increase by exactly p
and exactly one new PENDING WITHDRAWAL transaction of amount p is created for that
user. -/
theorem C3_completion_payout (db : DB) (tid : Nat) (pA : Position) (uid : String)
    (u : User) (T : Triangle) (P : Plan)
    (hA : db.positions.find? (fun p => p.triangleId = tid && p.level = 1 && p.position = 0)
            = some pA)
    (hocc : pA.userId = some uid)
    (hu : findUser db uid = some u)
    (hT : findTriangle db tid = some T)
    (hP : db.plans.find? (fun pl => pl.name = T.planType) = some P) :
    (handleTriangleCompletion db tid).txs
      = db.txs ++ [{ userId := uid, type := "WITHDRAWAL", amount := P.payout,
                     status := "PENDING", transactionId := db.clock,
                     description := "Automatic withdrawal - Triangle completion" }] ∧
    findUser (handleTriangleCompletion db tid) uid
      = some { u with balance := u.balance + P.payout,
                      totalEarned := u.totalEarned + P.payout } := by
  have hprops := List.find?_some hA
  simp only [Bool.and_eq_true, decide_eq_true_eq] at hprops
  obtain ⟨⟨htid, hlvl⟩, hidx⟩ := hprops
  have hid : u.id = uid := by
    have := List.find?_some hu
    simpa using this
  simp only [findUser] at hu
  simp only [findTriangle] at hT
  have hT2 := find_key_map_update Triangle.id
    (fun t => { t with isComplete := true, completedAt := some db.clock })
    (fun x => rfl) db.triangles tid T hT
  have hu2 := find_key_map_update User.id
    (fun v => { v with balance := v.balance + P.payout,
                       totalEarned := v.totalEarned + P.payout })
    (fun x => rfl) db.users uid u hu
  simp only [handleTriangleCompletion, hA, hocc, Option.some_bind, findUser, findTriangle,
    htid, hu, hT2, hP, cycleTriangle_txs, cycleTriangle_users, hid, hu2]
  exact ⟨trivial, trivial⟩

/-- Witness for C3 on the seed store. -/
theorem C3_completion_payout_witness :
    (handleTriangleCompletion dbSeed 0).txs
      = [{ userId := "u1", type := "WITHDRAWAL", amount := 500, status := "PENDING",
           transactionId := 7,
           description := "Automatic withdrawal - Triangle completion" }] ∧
    findUser (handleTriangleCompletion dbSeed 0) "u1"
      = some { mkRunUser 1 with balance := 500, totalEarned := 500 } := by
  have h := C3_completion_payout dbSeed 0 ⟨1, 0, 1, 0, "A", some "u1"⟩ "u1"
    (mkRunUser 1) ⟨0, "K1", false, false, none⟩ ⟨"K1", 500⟩ rfl rfl rfl rfl rfl
  exact ⟨h.1, h.2⟩

/-- Claim C4: cycling a triangle in which AB1 or AB2 is unoccupied creates zero new
triangles and deletes the old triangle together with all of its positions. -/
theorem C4_no_split (db : DB) (tid : Nat) (T : Triangle)
    (hT : findTriangle db tid = some T)
    (hne : positionsOf db tid ≠ [])
    (hAB : ((positionsOf db tid).find? (fun p => p.level = 2 && p.position = 0)).bind
             (fun p => p.userId) = none
         ∨ ((positionsOf db tid).find? (fun p => p.level = 2 && p.position = 1)).bind
             (fun p => p.userId) = none) :
    (cycleTriangle db tid).triangles = db.triangles.filter (fun t => !(t.id = tid)) ∧
    (cycleTriangle db tid).positions = db.positions.filter (fun p => !(p.triangleId = tid)) ∧
    (cycleTriangle db tid).nextId = db.nextId := by
  have hempty : (positionsOf db tid).isEmpty = false := by
    cases h : positionsOf db tid with
    | nil => exact absurd h hne
    | cons a as => rfl
  have hsnap : (if (positionsOf db tid).isEmpty = true then none else findTriangle db tid)
      = some T := by
    rw [if_neg (by simp [hempty])]
    exact hT
  rcases hAB with h1 | h2
  · have hab1 := bind_user_none (findUser db) h1
    simp only [cycleTriangle, hsnap, hab1]
    exact ⟨trivial, trivial, trivial⟩
  · have hab2 := bind_user_none (findUser db) h2
    cases hx : ((positionsOf db tid).find? (fun p => p.level = 2 && p.position = 0)).bind
        (fun p => p.userId.bind (findUser db)) with
    | none =>
      simp only [cycleTriangle, hsnap, hx]
      exact ⟨trivial, trivial, trivial⟩
    | some u1 =>
      simp only [cycleTriangle, hsnap, hx, hab2]
      exact ⟨trivial, trivial, trivial⟩

/-- Witness for C4: a triangle with an empty AB2 slot is deleted without successors. -/
theorem C4_no_split_witness :
    (cycleTriangle dbSeedAB2open 0).triangles = [] ∧
    (cycleTriangle dbSeedAB2open 0).positions = [] ∧
    (cycleTriangle dbSeedAB2open 0).nextId = 16 := by
  have h := C4_no_split dbSeedAB2open 0 ⟨0, "K1", false, false, none⟩ rfl
    (by decide) (Or.inr rfl)
  refine ⟨?_, ?_, h.2.2⟩
  · rw [h.1]
    rfl
  · rw [h.2.1]
    rfl

/-- Claim C5: every placement takes the open slot with the smallest (level, index)
of the target triangle, and placing 15 distinct users one after another into one
triangle fills it in ascending canonical order and invokes the completion handler
exactly once, synchronously during the 15th placement (events ghost log). -/
theorem C5_canonical_fill (db : DB) (uid : String) (rid : Option String)
    (pos : Position) (db2 : DB)
    (hWF : ∀ p ∈ db.positions, p.triangleId < db.nextId)
    (hok : assignUserToTriangle db uid rid = .ok (pos, db2)) :
    (pos.userId = none ∧
     ∀ q ∈ db.positions, q.triangleId = pos.triangleId → q.userId = none →
       pos.level < q.level ∨ (pos.level = q.level ∧ pos.position ≤ q.position)) ∧
    (runAssign runDB (runNames 14)).map (fun r => (r.1, r.2.events))
      = .ok ((TRIANGLE_STRUCTURE.map StructEntry.key).take 14, []) ∧
    (runAssign runDB (runNames 15)).map (fun r => (r.1, r.2.events))
      = .ok (TRIANGLE_STRUCTURE.map StructEntry.key, [0]) := by
  refine ⟨?_, by rfl, by rfl⟩
  cases hu : findUser db uid with
  | none => rw [assignUserToTriangle, hu] at hok; cases hok
  | some user =>
    cases href : refTargetTriangle db user rid with
    | some t =>
      rw [assignUserToTriangle, hu] at hok
      simp only [href] at hok
      have hos := assignInto_inv hok
      have hs := openSlot_spec hos
      refine ⟨hs.2.2.1, ?_⟩
      intro q hq htid hnone
      rw [← posLtB_false_iff]
      exact hs.2.2.2 q hq (by rw [htid, hs.2.1]) hnone
    | none =>
      cases hold : oldestOpenTriangle db user.plan with
      | some t =>
        rw [assignUserToTriangle, hu] at hok
        simp only [href, hold] at hok
        have hos := assignInto_inv hok
        have hs := openSlot_spec hos
        refine ⟨hs.2.2.1, ?_⟩
        intro q hq htid hnone
        rw [← posLtB_false_iff]
        exact hs.2.2.2 q hq (by rw [htid, hs.2.1]) hnone
      | none =>
        rw [assignUserToTriangle, hu] at hok
        simp only [href, hold] at hok
        have hos := assignInto_inv hok
        have hfr := openSlot_createTriangle db user.plan hWF
        simp only [createTriangle_eq] at hos hfr
        rw [hfr] at hos
        injection hos with hos
        subst hos
        refine ⟨rfl, ?_⟩
        intro q hq htid hnone
        exact absurd htid (Nat.ne_of_lt (hWF q hq))

/-- Witness for C5: the 15-user run fills the canonical keys in order with one
completion event. -/
theorem C5_canonical_fill_witness :
    (runAssign runDB (runNames 15)).map (fun r => (r.1, r.2.events))
      = .ok (TRIANGLE_STRUCTURE.map StructEntry.key, [0]) := by
  obtain ⟨pos, db2, hok⟩ :
      ∃ pos db2, assignUserToTriangle runDB "u1" none = .ok (pos, db2) := ⟨_, _, rfl⟩
  exact (C5_canonical_fill runDB "u1" none pos db2 (by decide) hok).2.2

/-- Claim C6: on completion with position A occupied but no Plan record for the
triangle's plan type, no transaction is created, users (hence balance and
totalEarned) are unchanged, no error is raised (the handler is a total function),
and the cycling step still runs: the triangle and its positions are deleted. -/
theorem C6_missing_plan_skips_payout (db : DB) (tid : Nat) (pA : Position) (uid : String)
    (u : User) (T : Triangle)
    (hA : db.positions.find? (fun p => p.triangleId = tid && p.level = 1 && p.position = 0)
            = some pA)
    (hocc : pA.userId = some uid)
    (hu : findUser db uid = some u)
    (hT : findTriangle db tid = some T)
    (hP : db.plans.find? (fun pl => pl.name = T.planType) = none) :
    (handleTriangleCompletion db tid).txs = db.txs ∧
    (handleTriangleCompletion db tid).users = db.users ∧
    findTriangle (handleTriangleCompletion db tid) tid = none ∧
    (handleTriangleCompletion db tid).positions.filter (fun p => p.triangleId = tid) = [] := by
  have hprops := List.find?_some hA
  simp only [Bool.and_eq_true, decide_eq_true_eq] at hprops
  obtain ⟨⟨htid, hlvl⟩, hidx⟩ := hprops
  simp only [findUser] at hu
  simp only [findTriangle] at hT
  have hT2 := find_key_map_update Triangle.id
    (fun t => { t with isComplete := true, completedAt := some db.clock })
    (fun x => rfl) db.triangles tid T hT
  have hgone := @cycleTriangle_gone
    { db with
      triangles := db.triangles.map (fun t =>
        if t.id = tid then { t with isComplete := true, completedAt := some db.clock }
        else t),
      events := db.events ++ [tid] }
    tid ?hne ?hsome
  case hne =>
    intro h
    simp only [positionsOf, sortPos_eq_nil_iff] at h
    have hmem : pA ∈ db.positions.filter (fun p => p.triangleId = tid) := by
      rw [List.mem_filter]
      exact ⟨List.mem_of_find?_eq_some hA, by simp [htid]⟩
    rw [h] at hmem
    cases hmem
  case hsome =>
    simp only [findTriangle]
    rw [hT2]
    rfl
  simp only [handleTriangleCompletion, hA, hocc, Option.some_bind, findUser, findTriangle,
    htid, hu, hT2, hP, cycleTriangle_txs, cycleTriangle_users]
  exact ⟨trivial, trivial, hgone.1, hgone.2⟩

/-- Witness for C6 on the seed store with an empty plan table. -/
theorem C6_missing_plan_skips_payout_witness :
    (handleTriangleCompletion dbSeedNoPlan 0).txs = [] ∧
    (handleTriangleCompletion dbSeedNoPlan 0).users = dbSeedNoPlan.users ∧
    findTriangle (handleTriangleCompletion dbSeedNoPlan 0) 0 = none ∧
    (handleTriangleCompletion dbSeedNoPlan 0).positions.filter
      (fun p => p.triangleId = 0) = [] := by
  have h := C6_missing_plan_skips_payout dbSeedNoPlan 0 ⟨1, 0, 1, 0, "A", some "u1"⟩
    "u1" (mkRunUser 1) ⟨0, "K1", false, false, none⟩ rfl rfl rfl rfl rfl
  exact ⟨h.1, h.2.1, h.2.2.1, h.2.2.2⟩

/-- Claim C7: findReferrer tries the four strategies in fixed priority order and
returns the first match: exact id match (attempted only when the token is
syntactically a valid ObjectId), then exact username match, then exact referral-code
match, then the suffix fallback. -/
theorem C7_referrer_precedence (db : DB) (tok : String) :
    (∀ u, isValidObjectId tok = true →
       db.users.find? (fun v => v.id = tok) = some u →
       findReferrer db tok = some u) ∧
    (∀ u, (isValidObjectId tok = false ∨ db.users.find? (fun v => v.id = tok) = none) →
       db.users.find? (fun v => v.username = tok) = some u →
       findReferrer db tok = some u) ∧
    (∀ u, (isValidObjectId tok = false ∨ db.users.find? (fun v => v.id = tok) = none) →
       db.users.find? (fun v => v.username = tok) = none →
       db.users.find? (fun v => v.referralCode = tok) = some u →
       findReferrer db tok = some u) ∧
    ((isValidObjectId tok = false ∨ db.users.find? (fun v => v.id = tok) = none) →
       db.users.find? (fun v => v.username = tok) = none →
       db.users.find? (fun v => v.referralCode = tok) = none →
       findReferrer db tok =
         (if 3 ≤ tok.length then
            db.users.find? (fun v => endsWithCL (lowerStr v.id) (lowerStr tok))
          else none)) :=
  findReferrer_cases db tok

/-- Witness for C7: a token that is simultaneously an id, a username, and a referral
code of three different users resolves to the id match. -/
theorem C7_referrer_precedence_witness :
    findReferrer dbRef "0123456789abcdef012345ab" = some refUser1 :=
  (C7_referrer_precedence dbRef "0123456789abcdef012345ab").1 refUser1
    (by decide) (by decide)

/-- Counterexample for C8 as stated: for the token "ab" the first three strategies
all fail and a case-insensitive suffix match exists, yet findReferrer returns none,
because the source guards the fallback with a minimum token length of 3. -/
theorem C8_counterexample :
    isValidObjectId "ab" = false ∧
    dbRef.users.find? (fun v => v.id = "ab") = none ∧
    dbRef.users.find? (fun v => v.username = "ab") = none ∧
    dbRef.users.find? (fun v => v.referralCode = "ab") = none ∧
    dbRef.users.find? (fun v => endsWithCL (lowerStr v.id) (lowerStr "ab"))
      = some refUser1 ∧
    findReferrer dbRef "ab" = none := by
  decide

/-- Claim C8 (amended): when the first three strategies fail, findReferrer returns
the first user whose id ends with the token case-insensitively, or none if no id
has that suffix, but only for tokens of length at least 3; shorter tokens skip the
fallback and resolve to none. -/
theorem C8_suffix_fallback_amended (db : DB) (tok : String)
    (h1 : isValidObjectId tok = false ∨ db.users.find? (fun v => v.id = tok) = none)
    (h2 : db.users.find? (fun v => v.username = tok) = none)
    (h3 : db.users.find? (fun v => v.referralCode = tok) = none) :
    (3 ≤ tok.length →
       findReferrer db tok
         = db.users.find? (fun v => endsWithCL (lowerStr v.id) (lowerStr tok))) ∧
    (tok.length < 3 → findReferrer db tok = none) := by
  have h4 := (findReferrer_cases db tok).2.2.2 h1 h2 h3
  constructor
  · intro hlen
    rw [h4, if_pos hlen]
  · intro hlen
    rw [h4, if_neg (by omega)]

/-- Witness for amended C8 with a length-3 token. -/
theorem C8_suffix_fallback_amended_witness :
    findReferrer dbRef "5ab"
      = dbRef.users.find? (fun v => endsWithCL (lowerStr v.id) (lowerStr "5ab")) ∧
    findReferrer dbRef "5ab" = some refUser1 := by
  constructor
  · exact (C8_suffix_fallback_amended dbRef "5ab" (Or.inl (by decide))
      (by decide) (by decide)).1 (by decide)
  · decide

/-- Claim C9: the two promotion maps together cover every level-3 and level-4
position key, AB1 and AB2 go to the successors' A slots, and in a split every
occupant of the old triangle except the occupant of A is transferred into exactly
one of the two successor triangles: the first successor's occupants are exactly the
left half, the second's exactly the right half, and the two halves are disjoint. -/
theorem C9_maps_cover_no_drop
    (db : DB) (tid : Nat) (T : Triangle)
    (i1 i2 i3 i4 i5 i6 i7 i8 i9 i10 i11 i12 i13 i14 i15 : Nat)
    (vA vAB1 vAB2 vB1C1 vB1C2 vB2C1 vB2C2 vC1D1 vC1D2 vC2D1 vC2D2 vC3D1 vC3D2 vC4D1 vC4D2 : String)
    (hT : findTriangle db tid = some T)
    (hpos : db.positions.filter (fun p => p.triangleId = tid)
      = fullTriangle tid i1 i2 i3 i4 i5 i6 i7 i8 i9 i10 i11 i12 i13 i14 i15 vA vAB1 vAB2 vB1C1 vB1C2 vB2C1 vB2C2 vC1D1 vC1D2 vC2D1 vC2D2 vC3D1 vC3D2 vC4D1 vC4D2)
    (hWFp : ∀ p ∈ db.positions, p.triangleId < db.nextId ∧ p.id < db.nextId)
    (husers : ∀ v ∈ [vAB1, vAB2, vB1C1, vB1C2, vB2C1, vB2C2, vC1D1, vC1D2, vC2D1, vC2D2, vC3D1, vC3D2, vC4D1, vC4D2], (findUser db v).isSome)
    (hdist : List.Nodup ([vAB1, vB1C1, vB1C2, vC1D1, vC1D2, vC2D1, vC2D2] ++ [vAB2, vB2C1, vB2C2, vC3D1, vC3D2, vC4D1, vC4D2])) :
    List.Perm ((TRIANGLE_STRUCTURE.filter (fun s => 2 < s.level)).map StructEntry.key)
      (ab1SubtreeMap.map Prod.fst ++ ab2SubtreeMap.map Prod.fst) ∧
    ((cycleTriangle db tid).positions.filter
        (fun p => p.triangleId = db.nextId)).filterMap (fun p => p.userId)
      = [vAB1, vB1C1, vB1C2, vC1D1, vC1D2, vC2D1, vC2D2] ∧
    ((cycleTriangle db tid).positions.filter
        (fun p => p.triangleId = db.nextId + 16)).filterMap (fun p => p.userId)
      = [vAB2, vB2C1, vB2C2, vC3D1, vC3D2, vC4D1, vC4D2] ∧
    (cycleTriangle db tid).positions.find?
        (fun p => p.triangleId = db.nextId && p.positionKey = "A")
      = some ⟨db.nextId + 1, db.nextId, 1, 0, "A", some vAB1⟩ ∧
    (cycleTriangle db tid).positions.find?
        (fun p => p.triangleId = db.nextId + 16 && p.positionKey = "A")
      = some ⟨db.nextId + 17, db.nextId + 16, 1, 0, "A", some vAB2⟩ ∧
    List.Disjoint [vAB1, vB1C1, vB1C2, vC1D1, vC1D2, vC2D1, vC2D2] [vAB2, vB2C1, vB2C2, vC3D1, vC3D2, vC4D1, vC4D2] := by
  have h := cycle_split_main db tid T i1 i2 i3 i4 i5 i6 i7 i8 i9 i10 i11 i12 i13 i14 i15 vA vAB1 vAB2 vB1C1 vB1C2 vB2C1 vB2C2 vC1D1 vC1D2 vC2D1 vC2D2 vC3D1 vC3D2 vC4D1 vC4D2 hT hpos hWFp husers
  have hFlt : ∀ p ∈ db.positions.filter (fun p => !(p.triangleId = tid)),
      p.triangleId < db.nextId :=
    fun p hp => (hWFp p (List.mem_filter.mp hp).1).1
  have hpr1 : (db.positions.filter (fun p => !(p.triangleId = tid))).filter
      (fun p => p.triangleId = db.nextId) = [] := by
    rw [List.filter_eq_nil_iff]
    intro p hp
    have := hFlt p hp
    simp
    omega
  have hpr2 : (db.positions.filter (fun p => !(p.triangleId = tid))).filter
      (fun p => p.triangleId = db.nextId + 16) = [] := by
    rw [List.filter_eq_nil_iff]
    intro p hp
    have := hFlt p hp
    simp
    omega
  have hfn1 : (db.positions.filter (fun p => !(p.triangleId = tid))).find?
      (fun p => p.triangleId = db.nextId && p.positionKey = "A") = none := by
    rw [List.find?_eq_none]
    intro p hp
    have := hFlt p hp
    simp
    omega
  have hfn2 : (db.positions.filter (fun p => !(p.triangleId = tid))).find?
      (fun p => p.triangleId = db.nextId + 16 && p.positionKey = "A") = none := by
    rw [List.find?_eq_none]
    intro p hp
    have := hFlt p hp
    simp
    omega
  refine ⟨by decide, ?_, ?_, ?_, ?_, ?_⟩
  · rw [h.2, List.filter_append, List.filter_append, hpr1]
    simp [leftSuccessor, rightSuccessor]
  · rw [h.2, List.filter_append, List.filter_append, hpr2]
    simp [leftSuccessor, rightSuccessor]
  · rw [h.2, List.find?_append, List.find?_append, hfn1]
    simp [leftSuccessor]
  · rw [h.2, List.find?_append, List.find?_append, hfn2]
    simp [leftSuccessor, rightSuccessor]
  · exact List.disjoint_of_nodup_append hdist

/-- Witness for C9 on the seed store. -/
theorem C9_maps_cover_no_drop_witness :
    List.Perm ((TRIANGLE_STRUCTURE.filter (fun s => 2 < s.level)).map StructEntry.key)
      (ab1SubtreeMap.map Prod.fst ++ ab2SubtreeMap.map Prod.fst) ∧
    ((cycleTriangle dbSeed 0).positions.filter
        (fun p => p.triangleId = 16)).filterMap (fun p => p.userId)
      = ["u2", "u4", "u5", "u8", "u9", "u10", "u11"] ∧
    ((cycleTriangle dbSeed 0).positions.filter
        (fun p => p.triangleId = 32)).filterMap (fun p => p.userId)
      = ["u3", "u6", "u7", "u12", "u13", "u14", "u15"] := by
  have h := C9_maps_cover_no_drop dbSeed 0 ⟨0, "K1", false, false, none⟩
    1 2 3 4 5 6 7 8 9 10 11 12 13 14 15
    "u1" "u2" "u3" "u4" "u5" "u6" "u7" "u8" "u9" "u10" "u11" "u12" "u13" "u14" "u15"
    rfl rfl (by decide) (by decide) (by decide)
  exact ⟨h.1, h.2.1, h.2.2.1⟩

/-- Counterexample for C10 as stated: a placement that completes the triangle
returns the slot record with occupant still empty, but after the call the slot has
been deleted by cycling, so it is not occupied by the user in the store. -/
theorem C10_counterexample :
    (assignUserToTriangle dbSeed14 "u15" none).map
      (fun r => (r.1.userId, r.2.events,
                 r.2.positions.filter (fun q => q.id = r.1.id)))
      = .ok (none, [0], []) := by
  rfl

/-- Claim C10 (amended): a successful placement returns the slot record as read
before the occupant write, so its occupant field is still empty; any record with
that slot's id still in the store after the call holds the user, and when the
target triangle survived the call (no completion), the slot does exist in the store
and is occupied by the user. -/
theorem C10_amended (db : DB) (uid : String) (rid : Option String)
    (pos : Position) (db2 : DB)
    (hWF1 : ∀ p ∈ db.positions, p.triangleId < db.nextId ∧ p.id < db.nextId)
    (hWF2 : (db.positions.map (fun p => p.id)).Nodup)
    (hok : assignUserToTriangle db uid rid = .ok (pos, db2)) :
    pos.userId = none ∧
    (∀ q ∈ db2.positions, q.id = pos.id → q.userId = some uid) ∧
    ((findTriangle db2 pos.triangleId).isSome →
       ∃ q ∈ db2.positions, q.id = pos.id ∧ q.userId = some uid) := by
  cases hu : findUser db uid with
  | none => rw [assignUserToTriangle, hu] at hok; cases hok
  | some user =>
    cases href : refTargetTriangle db user rid with
    | some t =>
      rw [assignUserToTriangle, hu] at hok
      simp only [href] at hok
      exact assignInto_c10 db uid t pos db2 hWF1 hWF2 hok
    | none =>
      cases hold : oldestOpenTriangle db user.plan with
      | some t =>
        rw [assignUserToTriangle, hu] at hok
        simp only [href, hold] at hok
        exact assignInto_c10 db uid t pos db2 hWF1 hWF2 hok
      | none =>
        rw [assignUserToTriangle, hu] at hok
        simp only [href, hold] at hok
        have hWF := createTriangle_WF db user.plan hWF1 hWF2
        exact assignInto_c10 (createTriangle db user.plan).2 uid
          (createTriangle db user.plan).1 pos db2 hWF.1 hWF.2 hok

/-- Witness for amended C10 on a fresh placement. -/
theorem C10_amended_witness :
    (assignUserToTriangle runDB "u1" none).map (fun r => r.1.userId) = .ok none := by
  obtain ⟨pos, db2, hok⟩ :
      ∃ pos db2, assignUserToTriangle runDB "u1" none = .ok (pos, db2) := ⟨_, _, rfl⟩
  have h := (C10_amended runDB "u1" none pos db2 (by decide) (by decide) hok).1
  rw [hok]
  simp [Except.map, h]

end Kings
